import Mathlib

/-!
# Verification development for `internal/mage/engine.go`

The file embeds the two pieces of logic of the mage `Engine` namespace that
carry behaviour of their own:

* `parseRef`, the version gate of `Engine.Publish`, together with the
  validity check of `golang.org/x/mod/semver` it calls;
* `Engine.Dev`, the local workflow that loads, tags, removes and starts the
  engine container through the `docker` command line, and `Engine.Publish`.

Go strings are rendered as Lean `String`s (sequences of code points); every
byte test of the Go sources is against an ASCII character, so on UTF-8 text
the byte-wise and the code-point-wise readings agree.  The collaborators
(the dagger client, the `docker` subprocesses, the process environment) are
an explicit `World` whose answers may depend on everything done before; the
workflows thread its state and keep a transcript of what they did.
-/

/-! ## Go errors -/

/-- A Go `error` value: either a plain message (`errors.New`, `fmt.Errorf`
without `%w`, or whatever a collaborator returned) or a `fmt.Errorf` result
with one `%w` verb, which keeps the wrapped error for `errors.Unwrap`. -/
inductive GoError where
  | errorString (s : String)
  | wrapError (msg : String) (err : GoError)
  deriving DecidableEq, Repr

namespace GoError

/-- The method `Error()` of the error value. -/
def Error : GoError → String
  | errorString s => s
  | wrapError msg _ => msg

/-- The function `errors.Unwrap` on the error value. -/
def Unwrap : GoError → Option GoError
  | errorString _ => none
  | wrapError _ err => some err

end GoError

/-! ## `golang.org/x/mod/semver` (imported at `engine.go:19`)

`parseRef` and `Publish` decide with `semver.IsValid` of this module, which is
a dependency of the repository.  The definitions below follow the functions
of its `semver.go` one by one.  The package documents the form it accepts as
`vMAJOR[.MINOR[.PATCH[-PRERELEASE][+BUILD]]]`: it asks for the `v` and takes
`vMAJOR` and `vMAJOR.MINOR` as shorthands.
-/

namespace semver

/-- The byte test `'0' <= c && c <= '9'` used throughout the package. -/
def isDigit (c : Char) : Bool := decide ('0' ≤ c) && decide (c ≤ '9')

/-- The function `isIdentChar` of the package. -/
def isIdentChar (c : Char) : Bool :=
  (decide ('A' ≤ c) && decide (c ≤ 'Z')) || (decide ('a' ≤ c) && decide (c ≤ 'z')) ||
    (decide ('0' ≤ c) && decide (c ≤ '9')) || c == '-'

/-- The function `isBadNum`: the loop counts the leading digits `i`; the text
is a bad number when it is all digits, longer than one and starts with `0`. -/
def isBadNum (v : List Char) : Bool :=
  let i := (v.takeWhile isDigit).length
  i == v.length && decide (i > 1) && v.head? == some '0'

/-- The function `parseInt`: `v[:i]` is the first digit followed by the
digits the loop walks over, `v[i:]` is what is left. -/
def parseInt (v : List Char) : Option (List Char × List Char) :=
  match v with
  | [] => none
  | c :: cs =>
    if !isDigit c then none
    else
      let t := cs.takeWhile isDigit
      if c == '0' && t.length + 1 != 1 then none
      else some (c :: t, cs.dropWhile isDigit)

/-- The loop of `parsePrerelease`, started after the leading hyphen: `acc` is
`v[:i]`, `cur` is `v[start:i]` and the list argument is `v[i:]`. -/
def prereleaseLoop (acc cur : List Char) : List Char → Option (List Char × List Char)
  | [] => if cur.isEmpty || isBadNum cur then none else some (acc, [])
  | c :: cs =>
    if c == '+' then
      if cur.isEmpty || isBadNum cur then none else some (acc, c :: cs)
    else if !isIdentChar c && c != '.' then none
    else if c == '.' then
      if cur.isEmpty || isBadNum cur then none else prereleaseLoop (acc ++ [c]) [] cs
    else prereleaseLoop (acc ++ [c]) (cur ++ [c]) cs

/-- The function `parsePrerelease`. -/
def parsePrerelease (v : List Char) : Option (List Char × List Char) :=
  match v with
  | [] => none
  | c :: cs => if c != '-' then none else prereleaseLoop [c] [] cs

/-- The loop of `parseBuild`, started after the leading plus sign, with the
same reading of `acc` and `cur` as in `prereleaseLoop`. -/
def buildLoop (acc cur : List Char) : List Char → Option (List Char × List Char)
  | [] => if cur.isEmpty then none else some (acc, [])
  | c :: cs =>
    if !isIdentChar c && c != '.' then none
    else if c == '.' then
      if cur.isEmpty then none else buildLoop (acc ++ [c]) [] cs
    else buildLoop (acc ++ [c]) (cur ++ [c]) cs

/-- The function `parseBuild`. -/
def parseBuild (v : List Char) : Option (List Char × List Char) :=
  match v with
  | [] => none
  | c :: cs => if c != '+' then none else buildLoop [c] [] cs

/-- The struct `parsed` of the package. -/
structure parsed where
  major : List Char
  minor : List Char
  patch : List Char
  short : List Char
  prerelease : List Char
  build : List Char
  deriving DecidableEq, Repr

/-- The function `parse`; `none` is the result `ok == false`. -/
def parse (v : List Char) : Option parsed :=
  match v with
  | [] => none
  | c0 :: v =>
    if c0 != 'v' then none else
    match parseInt v with
    | none => none
    | some (major, v) =>
      match v with
      | [] => some ⟨major, ['0'], ['0'], ['.', '0', '.', '0'], [], []⟩
      | c1 :: v =>
        if c1 != '.' then none else
        match parseInt v with
        | none => none
        | some (minor, v) =>
          match v with
          | [] => some ⟨major, minor, ['0'], ['.', '0'], [], []⟩
          | c2 :: v =>
            if c2 != '.' then none else
            match parseInt v with
            | none => none
            | some (patch, v) =>
              match (if v.head? == some '-' then parsePrerelease v else some ([], v)) with
              | none => none
              | some (prerelease, v) =>
                match (if v.head? == some '+' then parseBuild v else some ([], v)) with
                | none => none
                | some (build, v) =>
                  if v != [] then none
                  else some ⟨major, minor, patch, [], prerelease, build⟩

/-- The function `IsValid`. -/
def IsValid (v : String) : Bool := (parse v.data).isSome

end semver

/-! ## `strings.Cut` and `strings.TrimSpace` -/

namespace strings

/-- The search of `strings.Cut`: the text before and after the first
occurrence of `sep`, or `none` when `strings.Index` finds none. -/
def cutList (sep : List Char) : List Char → Option (List Char × List Char)
  | [] => if sep.isPrefixOf [] then some ([], []) else none
  | c :: cs =>
    if sep.isPrefixOf (c :: cs) then some ([], (c :: cs).drop sep.length)
    else (cutList sep cs).map fun p => (c :: p.1, p.2)

/-- The function `strings.Cut`. -/
def Cut (s sep : String) : String × String × Bool :=
  match cutList sep.data s.data with
  | some (before, after) => (⟨before⟩, ⟨after⟩, true)
  | none => (s, "", false)

/-- The predicate `unicode.IsSpace`. -/
def isSpace (c : Char) : Bool :=
  let n := c.toNat
  n == 0x09 || n == 0x0A || n == 0x0B || n == 0x0C || n == 0x0D || n == 0x20 ||
    n == 0x85 || n == 0xA0 || n == 0x1680 || (decide (0x2000 ≤ n) && decide (n ≤ 0x200A)) ||
    n == 0x2028 || n == 0x2029 || n == 0x202F || n == 0x205F || n == 0x3000

/-- The function `strings.TrimSpace`: leading and trailing white space is
dropped. -/
def TrimSpace (s : String) : String :=
  ⟨((s.data.dropWhile isSpace).reverse.dropWhile isSpace).reverse⟩

end strings

/-! ## `filepath.Join` -/

namespace filepath

/-- The path elements between the slashes of a path. -/
def splitSlash : List Char → List (List Char)
  | [] => [[]]
  | c :: cs =>
    match splitSlash cs with
    | [] => [[]]
    | x :: xs => if c == '/' then [] :: x :: xs else (c :: x) :: xs

/-- The loop of `Clean` over the path elements: `kept` holds the elements
written so far, the last one first.  Empty and `.` elements are skipped; a
`..` element takes back the last element written unless there is none to take
back, in which case it is written itself on a path that is not rooted. -/
def cleanLoop (rooted : Bool) : List (List Char) → List (List Char) → List (List Char)
  | kept, [] => kept
  | kept, e :: es =>
    if e == [] || e == ['.'] then cleanLoop rooted kept es
    else if e == ['.', '.'] then
      match kept with
      | k :: ks =>
        if k == ['.', '.'] then cleanLoop rooted (e :: kept) es else cleanLoop rooted ks es
      | [] => if rooted then cleanLoop rooted [] es else cleanLoop rooted [e] es
    else cleanLoop rooted (e :: kept) es

/-- The function `filepath.Clean` on slash-separated paths. -/
def Clean (path : String) : String :=
  if path == "" then "."
  else
    let rooted := path.data.head? == some '/'
    let kept := (cleanLoop rooted [] (splitSlash path.data)).reverse
    let out := (if rooted then "/" else "") ++ "/".intercalate (kept.map String.mk)
    if out == "" then "." else out

/-- The function `filepath.Join` on slash-separated paths: the elements from
the first non-empty one on, joined by slashes and cleaned. -/
def Join (elem : List String) : String :=
  match elem.dropWhile (fun e => e == "") with
  | [] => ""
  | rest => Clean ("/".intercalate rest)

end filepath

/-! ## The collaborators -/

/-- The constants of `internal/mage/util` that `engine.go` reads, the process
architecture and `filepath.Join`; none of them is declared in `engine.go`. -/
structure Util where
  EngineContainerName : String
  CacheConfigEnvName : String
  ServicesDNSEnvName : String
  EngineDefaultStateDir : String
  GOARCH : String
  filepathJoin : List String → String

/-- Everything `engine.go` calls outside itself, as answers that may depend
on a state `σ` of the outside world and change it. -/
structure World (σ : Type) where
  /-- Models `dagger.Connect`. -/
  connect : σ → Option GoError × σ
  /-- Models the deferred `c.Close()`. -/
  close : σ → σ
  /-- Models `c.Container().Export(ctx, path, opts)` for the given arches. -/
  exportImage : String → List String → σ → Option GoError × σ
  /-- Models `exec.CommandContext(ctx, name, args...).CombinedOutput()`. -/
  combinedOutput : String → List String → σ → (String × Option GoError) × σ
  /-- Models `util.HostDaggerBinary(c).Export(ctx, dest)`. -/
  exportBinary : String → σ → Option GoError × σ
  /-- Models `os.Getenv`; the process environment is fixed during a run. -/
  getenv : String → String
  /-- Models `util.GetHostEnv` on the same environment. -/
  getHostEnv : String → String
  /-- Models `c.Container().Publish(ctx, ref, opts)` with the variants built
  for the given arches and version. -/
  publish : String → List String → String → σ → (String × Option GoError) × σ
  /-- Models `sdk.All{}.Bump(ctx, version)`. -/
  bump : String → σ → Option GoError × σ

/-- One subprocess run: the command line and what `CombinedOutput` gave. -/
structure Call where
  name : String
  args : List String
  output : String
  err : Option GoError
  deriving DecidableEq, Repr

/-- The docker verb of a call, its first argument. -/
def Call.verb (c : Call) : Option String := c.args.head?

namespace mage

/-- The list `publishedEngineArches`. -/
def publishedEngineArches : List String := ["amd64", "arm64"]

/-- The function `parseRef` (`engine.go:24-32`); `none` is the `nil` error. -/
def parseRef (tag : String) : Option GoError :=
  if tag == "main" then none
  else if !semver.IsValid tag then some (.errorString ("invalid semver tag: " ++ tag))
  else none

/-- What a run of `Engine.Dev` leaves behind: the returned error, the
subprocesses it ran in order, what it wrote to standard output, the files on
disk and the state of the outside world. -/
structure DevResult (σ : Type) where
  err : Option GoError
  calls : List Call
  stdout : String
  disk : List String
  state : σ

/-- The path `tarPath` of `Engine.Dev`. -/
def tarPath : String := "./bin/engine.tar"

/-- The value `imageName` of `Engine.Dev`. -/
def imageName (u : Util) : String := "localhost/" ++ u.EngineContainerName ++ ":latest"

/-- The value `binDest` of `Engine.Dev`. -/
def binDest {σ : Type} (u : Util) (w : World σ) : String :=
  u.filepathJoin [w.getenv "DAGGER_SRC_ROOT", "bin", "dagger"]

/-- The slice `runArgs` of `Engine.Dev` after the `append`. -/
def runArgs (u : Util) : List String :=
  let volumeName := u.EngineContainerName
  ["run", "-d",
   "-e", u.CacheConfigEnvName,
   "-e", u.ServicesDNSEnvName,
   "-e", "_EXPERIMENTAL_DAGGER_CLOUD_TOKEN",
   "-e", "_EXPERIMENTAL_DAGGER_CLOUD_URL",
   "-v", volumeName ++ ":" ++ u.EngineDefaultStateDir,
   "--name", u.EngineContainerName,
   "--privileged"] ++ [imageName u, "--debug"]

/-- The method `Engine.Dev` (`engine.go:260-339`).  `disk` is the set of
paths that exist when it starts; a successful image export creates
`tarPath`.  Every return after a successful connect runs the deferred
`c.Close()`. -/
def Dev {σ : Type} (u : Util) (w : World σ) (disk : List String) (s : σ) : DevResult σ :=
  match w.connect s with
  | (some err, s) => ⟨some err, [], "", disk, s⟩
  | (none, s) =>
    let arches := [u.GOARCH]
    match w.exportImage tarPath arches s with
    | (some err, s) => ⟨some err, [], "", disk, w.close s⟩
    | (none, s) =>
      let disk := tarPath :: disk
      let imageName := imageName u
      let loadArgs := ["load", "-i", tarPath]
      match w.combinedOutput "docker" loadArgs s with
      | ((output, some err), s) =>
        ⟨some (.wrapError ("docker load failed: " ++ err.Error ++ ": " ++ output) err),
          [⟨"docker", loadArgs, output, some err⟩], "", disk, w.close s⟩
      | ((output, none), s) =>
        let calls := [Call.mk "docker" loadArgs output none]
        match strings.Cut output "sha256:" with
        | (_, _, false) =>
          ⟨some (.errorString ("unexpected output from docker load: " ++ output)),
            calls, "", disk, w.close s⟩
        | (_, imageID, true) =>
          let imageID := strings.TrimSpace imageID
          let tagArgs := ["tag", imageID, imageName]
          match w.combinedOutput "docker" tagArgs s with
          | ((output, some err), s) =>
            ⟨some (.wrapError ("docker tag: " ++ err.Error ++ ": " ++ output) err),
              calls ++ [⟨"docker", tagArgs, output, some err⟩], "", disk, w.close s⟩
          | ((output, none), s) =>
            let calls := calls ++ [Call.mk "docker" tagArgs output none]
            let rmArgs := ["rm", "-fv", u.EngineContainerName]
            match w.combinedOutput "docker" rmArgs s with
            | ((output, some err), s) =>
              ⟨some (.wrapError ("docker rm: " ++ err.Error ++ ": " ++ output) err),
                calls ++ [⟨"docker", rmArgs, output, some err⟩], "", disk, w.close s⟩
            | ((output, none), s) =>
              let calls := calls ++ [Call.mk "docker" rmArgs output none]
              let runArgs := runArgs u
              match w.combinedOutput "docker" runArgs s with
              | ((output, some err), s) =>
                ⟨some (.wrapError ("docker run: " ++ err.Error ++ ": " ++ output) err),
                  calls ++ [⟨"docker", runArgs, output, some err⟩], "", disk, w.close s⟩
              | ((output, none), s) =>
                let calls := calls ++ [Call.mk "docker" runArgs output none]
                let binDest := binDest u w
                match w.exportBinary binDest s with
                | (some err, s) => ⟨some err, calls, "", disk, w.close s⟩
                | (none, s) =>
                  let disk := binDest :: disk
                  let stdout := "export _EXPERIMENTAL_DAGGER_CLI_BIN=" ++ binDest ++ "\n"
                  let stdout := stdout ++
                    "export _EXPERIMENTAL_DAGGER_RUNNER_HOST=docker-container://" ++
                      u.EngineContainerName ++ "\n"
                  ⟨none, calls, stdout, disk, w.close s⟩


/-- What a run of `Engine.Publish` leaves behind: the returned error, whether
the engine was connected to, the references published, the versions the SDKs
were bumped to, standard output and the state of the outside world. -/
structure PublishResult (σ : Type) where
  err : Option GoError
  connects : Nat
  published : List String
  bumped : List String
  stdout : String
  state : σ

/-- The method `Engine.Publish` (`engine.go:72-110`). -/
def Publish {σ : Type} (w : World σ) (version : String) (s : σ) : PublishResult σ :=
  match parseRef version with
  | some err => ⟨some err, 0, [], [], "", s⟩
  | none =>
    match w.connect s with
    | (some err, s) => ⟨some err, 1, [], [], "", s⟩
    | (none, s) =>
      let engineImage := w.getHostEnv "DAGGER_ENGINE_IMAGE"
      let ref := engineImage ++ ":" ++ version
      match w.publish ref publishedEngineArches version s with
      | ((_, some err), s) => ⟨some err, 1, [ref], [], "", w.close s⟩
      | ((digest, none), s) =>
        if semver.IsValid version then
          match w.bump version s with
          | (some err, s) => ⟨some err, 1, [ref], [version], "", w.close s⟩
          | (none, s) =>
            ⟨none, 1, [ref], [version], "PUBLISHED IMAGE REF: " ++ digest ++ "\n", w.close s⟩
        else
          let stdout := "\x27" ++ version ++
            "\x27 is not a semver version, skipping image bump in SDKs"
          ⟨none, 1, [ref], [], stdout ++ "PUBLISHED IMAGE REF: " ++ digest ++ "\n", w.close s⟩

/-- The identity-extraction step of `Engine.Dev` (`engine.go:289-293`) on its
own: `none` is the unexpected-output failure. -/
def extractImageID (output : String) : Option String :=
  match strings.Cut output "sha256:" with
  | (_, _, false) => none
  | (_, imageID, true) => some (strings.TrimSpace imageID)

end mage

namespace mage

/-- The transcript entry of the load step. -/
def loadCall (output : String) (err : Option GoError) : Call :=
  ⟨"docker", ["load", "-i", tarPath], output, err⟩

/-- The transcript entry of the tag step for image identity `imageID`. -/
def tagCall (u : Util) (imageID output : String) (err : Option GoError) : Call :=
  ⟨"docker", ["tag", imageID, imageName u], output, err⟩

/-- The transcript entry of the teardown step. -/
def rmCall (u : Util) (output : String) (err : Option GoError) : Call :=
  ⟨"docker", ["rm", "-fv", u.EngineContainerName], output, err⟩

/-- The transcript entry of the start step. -/
def runCall (u : Util) (output : String) (err : Option GoError) : Call :=
  ⟨"docker", runArgs u, output, err⟩

/-- The message `fmt.Errorf(label + "%w: %s", err, output)` builds. -/
def subprocessError (label : String) (err : GoError) (output : String) : GoError :=
  .wrapError (label ++ err.Error ++ ": " ++ output) err

/-- The two lines `Engine.Dev` prints on success. -/
def devReport {σ : Type} (u : Util) (w : World σ) : String :=
  "export _EXPERIMENTAL_DAGGER_CLI_BIN=" ++ binDest u w ++ "\n" ++
    "export _EXPERIMENTAL_DAGGER_RUNNER_HOST=docker-container://" ++
      u.EngineContainerName ++ "\n"

end mage

/-! ## The answers of the world along a run of `Dev` -/

namespace mage

/-- The answer of the world to the image export, asked after the connect. -/
def exportAnswer {σ : Type} (u : Util) (w : World σ) (s : σ) : Option GoError × σ :=
  w.exportImage tarPath [u.GOARCH] (w.connect s).2

/-- The answer of the world to `docker load`, asked after the export. -/
def loadAnswer {σ : Type} (u : Util) (w : World σ) (s : σ) : (String × Option GoError) × σ :=
  w.combinedOutput "docker" ["load", "-i", tarPath] (exportAnswer u w s).2

/-- The identity the load output carries. -/
def loadedID {σ : Type} (u : Util) (w : World σ) (s : σ) : String :=
  (extractImageID (loadAnswer u w s).1.1).getD ""

/-- The answer of the world to `docker tag`, asked after the load. -/
def tagAnswer {σ : Type} (u : Util) (w : World σ) (s : σ) : (String × Option GoError) × σ :=
  w.combinedOutput "docker" ["tag", loadedID u w s, imageName u] (loadAnswer u w s).2

/-- The answer of the world to `docker rm`, asked after the tag. -/
def rmAnswer {σ : Type} (u : Util) (w : World σ) (s : σ) : (String × Option GoError) × σ :=
  w.combinedOutput "docker" ["rm", "-fv", u.EngineContainerName] (tagAnswer u w s).2

/-- The answer of the world to `docker run`, asked after the remove. -/
def runAnswer {σ : Type} (u : Util) (w : World σ) (s : σ) : (String × Option GoError) × σ :=
  w.combinedOutput "docker" (runArgs u) (rmAnswer u w s).2

/-- The answer of the world to the export of the CLI binary, asked last. -/
def binaryAnswer {σ : Type} (u : Util) (w : World σ) (s : σ) : Option GoError × σ :=
  w.exportBinary (binDest u w) (runAnswer u w s).2

/-- The connect and the image export succeed. -/
abbrev loadReached {σ : Type} (u : Util) (w : World σ) (s : σ) : Prop :=
  (w.connect s).1 = none ∧ (exportAnswer u w s).1 = none

/-- The load succeeds as well and its output contains the marker. -/
abbrev tagReached {σ : Type} (u : Util) (w : World σ) (s : σ) : Prop :=
  loadReached u w s ∧ (loadAnswer u w s).1.2 = none ∧
    "sha256:".data <:+: (loadAnswer u w s).1.1.data

/-- The tag succeeds as well. -/
abbrev rmReached {σ : Type} (u : Util) (w : World σ) (s : σ) : Prop :=
  tagReached u w s ∧ (tagAnswer u w s).1.2 = none

/-- The remove succeeds as well. -/
abbrev runReached {σ : Type} (u : Util) (w : World σ) (s : σ) : Prop :=
  rmReached u w s ∧ (rmAnswer u w s).1.2 = none

/-- The run succeeds as well: every subprocess has succeeded. -/
abbrev binaryReached {σ : Type} (u : Util) (w : World σ) (s : σ) : Prop :=
  runReached u w s ∧ (runAnswer u w s).1.2 = none

/-- Every step of the workflow succeeds. -/
abbrev allSucceed {σ : Type} (u : Util) (w : World σ) (s : σ) : Prop :=
  binaryReached u w s ∧ (binaryAnswer u w s).1 = none

end mage

/-! ## The SemVer 2.0 grammar, as the specification words it -/

namespace SemVer2

/-- The digits of the grammar. -/
def digits : List Char := "0123456789".data

/-- The letters of the grammar. -/
def letters : List Char := "ABCDEFGHIJKLMNOPQRSTUVWXYZabcdefghijklmnopqrstuvwxyz".data

/-- The rule `<digit>`. -/
def digit (c : Char) : Bool := decide (c ∈ digits)

/-- The rule `<non-digit> ::= <letter> | "-"`. -/
def nonDigit (c : Char) : Bool := decide (c ∈ letters) || c == '-'

/-- The rule `<identifier character> ::= <digit> | <non-digit>`. -/
def identifierCharacter (c : Char) : Bool := digit c || nonDigit c

/-- The rule `<numeric identifier>`: `0`, or digits that start with a positive
digit. -/
def numericIdentifier (t : List Char) : Bool :=
  !t.isEmpty && t.all digit && (t.head? != some '0' || t.length == 1)

/-- The rule `<alphanumeric identifier>`: identifier characters with at least
one non-digit among them. -/
def alphanumericIdentifier (t : List Char) : Bool :=
  t.all identifierCharacter && t.any nonDigit

/-- The rule `<pre-release identifier>`. -/
def preReleaseIdentifier (t : List Char) : Bool :=
  alphanumericIdentifier t || numericIdentifier t

/-- The rule `<build identifier>`. -/
def buildIdentifier (t : List Char) : Bool :=
  alphanumericIdentifier t || (!t.isEmpty && t.all digit)

/-- Identifiers written one after the other with dots in between. -/
def dotSeparated : List (List Char) → List Char
  | [] => []
  | [x] => x
  | x :: y :: rest => x ++ '.' :: dotSeparated (y :: rest)

/-- An optional part: nothing when there are no identifiers, else the
introducing character and the dot-separated identifiers. -/
def optionalPart (lead : Char) (ids : List (List Char)) : List Char :=
  if ids.isEmpty then [] else lead :: dotSeparated ids

/-- The strict syntax the specification asks of a tag: `vMAJOR.MINOR.PATCH`
followed by an optional pre-release part and an optional build part. -/
def StrictSemVer (tag : String) : Prop :=
  ∃ (major minor patch : List Char) (pre build : List (List Char)),
    numericIdentifier major = true ∧ numericIdentifier minor = true ∧
    numericIdentifier patch = true ∧
    (∀ id ∈ pre, preReleaseIdentifier id = true) ∧
    (∀ id ∈ build, buildIdentifier id = true) ∧
    tag.data = 'v' :: (major ++ '.' :: (minor ++ '.' :: (patch ++
      (optionalPart '-' pre ++ optionalPart '+' build))))

/-- The shortened forms `vMAJOR` and `vMAJOR.MINOR`. -/
def ShortSemVer (tag : String) : Prop :=
  ∃ major : List Char, numericIdentifier major = true ∧
    (tag.data = 'v' :: major ∨
      ∃ minor : List Char, numericIdentifier minor = true ∧
        tag.data = 'v' :: (major ++ '.' :: minor))

end SemVer2

/-! ## The same syntax in the terms of the library -/

namespace semver

/-- The library's reading of a numeric identifier. -/
def IsNum (t : List Char) : Prop :=
  t ≠ [] ∧ (∀ c ∈ t, isDigit c = true) ∧ (t.head? = some '0' → t.length = 1)

/-- The text does not go on with a digit. -/
def NoDigitAhead (rest : List Char) : Prop := ∀ c, rest.head? = some c → isDigit c = false

/-- The identifiers after the first, each with its leading dot. -/
def dotRest : List (List Char) → List Char
  | [] => []
  | m :: ms => '.' :: (m ++ dotRest ms)

/-- The library's reading of a pre-release identifier. -/
def IsPre (t : List Char) : Prop :=
  t ≠ [] ∧ (∀ c ∈ t, isIdentChar c = true) ∧ isBadNum t = false

/-- The library's reading of a build identifier. -/
def IsBuild (t : List Char) : Prop := t ≠ [] ∧ ∀ c ∈ t, isIdentChar c = true

/-- The text ends or goes on with a plus sign. -/
def PlusAhead (rest : List Char) : Prop := rest = [] ∨ rest.head? = some '+'

end semver

/-! ## What a surfaced subprocess failure looks like -/

/-- The error `err` wraps `e` and carries the step label, the message of `e`
and the output `o` unchanged. -/
def Surfaces (err : Option GoError) (label : String) (e : GoError) (o : String) : Prop :=
  ∃ x, err = some x ∧ x.Unwrap = some e ∧ x.Error = label ++ e.Error ++ ": " ++ o ∧
    o.data <:+: x.Error.data

/-! ## Concrete collaborators used to run the workflows -/

/-- Sample values for the constants, with the container name `dagger-engine`. -/
def stdUtil : Util where
  EngineContainerName := "dagger-engine"
  CacheConfigEnvName := "_EXPERIMENTAL_DAGGER_CACHE_CONFIG"
  ServicesDNSEnvName := "_EXPERIMENTAL_DAGGER_SERVICES_DNS"
  EngineDefaultStateDir := "/var/lib/dagger"
  GOARCH := "amd64"
  filepathJoin := filepath.Join

/-- A world in which the dagger client always succeeds and the subprocesses
answer from a script, one entry per run; past the script they succeed with
no output. -/
def scriptedWorld : World (List (String × Option GoError)) where
  connect := fun s => (none, s)
  close := fun s => s
  exportImage := fun _ _ s => (none, s)
  combinedOutput := fun _ _ s =>
    match s with
    | [] => (("", none), [])
    | r :: rest => (r, rest)
  exportBinary := fun _ s => (none, s)
  getenv := fun _ => "/src"
  getHostEnv := fun _ => "registry.dagger.io/engine"
  publish := fun _ _ _ s => (("sha256:0f", none), s)
  bump := fun _ s => (none, s)

/-- A subprocess failure with exit status 1. -/
def exitStatus1 : GoError := .errorString "exit status 1"

/-- The docker commands of a successful run, with their default answers. -/
def okScript : List (String × Option GoError) :=
  [("Loaded image ID: sha256:abc123\n", none), ("", none), ("dagger-engine\n", none),
   ("5f2c\n", none)]

/-- A run in which the load output carries no digest marker. -/
def noMarkerScript : List (String × Option GoError) :=
  [("open ./bin/engine.tar: no such file\n", none)]

/-- A run in which `docker rm` reports that the container does not exist. -/
def notFoundScript : List (String × Option GoError) :=
  [("Loaded image ID: sha256:abc123\n", none), ("", none),
   ("Error response from daemon: No such container: dagger-engine\n", some exitStatus1)]

/-- A run in which `docker tag` fails. -/
def tagFailsScript : List (String × Option GoError) :=
  [("Loaded image ID: sha256:abc123\n", none),
   ("Error response from daemon: No such image: abc123\n", some exitStatus1)]

/-- A run in which `docker load` fails. -/
def loadFailsScript : List (String × Option GoError) :=
  [("open ./bin/engine.tar: permission denied\n", some exitStatus1)]

/-- A run in which `docker run` fails. -/
def runFailsScript : List (String × Option GoError) :=
  [("Loaded image ID: sha256:abc123\n", none), ("", none), ("dagger-engine\n", none),
   ("docker: Error response from daemon: Conflict.\n", some exitStatus1)]

/-! ## Shapes of the results of `Dev` -/

namespace mage

/-- Every run of `Dev` ends in one of its ten return statements; a property
that holds of the result of each holds of `Dev`. -/
theorem Dev_elim {σ : Type} (u : Util) (w : World σ) (disk : List String) (s : σ)
    (P : DevResult σ → Prop)
    (hConnect : ∀ e s1, P ⟨some e, [], "", disk, s1⟩)
    (hLoad : ∀ o e s1,
      P ⟨some (subprocessError "docker load failed: " e o), [loadCall o (some e)], "",
        tarPath :: disk, s1⟩)
    (hExtract : ∀ o b a s1, strings.Cut o "sha256:" = (b, a, false) →
      P ⟨some (.errorString ("unexpected output from docker load: " ++ o)),
        [loadCall o none], "", tarPath :: disk, s1⟩)
    (hTag : ∀ o b a o2 e s1, strings.Cut o "sha256:" = (b, a, true) →
      P ⟨some (subprocessError "docker tag: " e o2),
        [loadCall o none, tagCall u (strings.TrimSpace a) o2 (some e)], "",
        tarPath :: disk, s1⟩)
    (hRm : ∀ o b a o2 o3 e s1, strings.Cut o "sha256:" = (b, a, true) →
      P ⟨some (subprocessError "docker rm: " e o3),
        [loadCall o none, tagCall u (strings.TrimSpace a) o2 none, rmCall u o3 (some e)], "",
        tarPath :: disk, s1⟩)
    (hRun : ∀ o b a o2 o3 o4 e s1, strings.Cut o "sha256:" = (b, a, true) →
      P ⟨some (subprocessError "docker run: " e o4),
        [loadCall o none, tagCall u (strings.TrimSpace a) o2 none, rmCall u o3 none,
          runCall u o4 (some e)], "", tarPath :: disk, s1⟩)
    (hBinary : ∀ o b a o2 o3 o4 e s1, strings.Cut o "sha256:" = (b, a, true) →
      P ⟨some e,
        [loadCall o none, tagCall u (strings.TrimSpace a) o2 none, rmCall u o3 none,
          runCall u o4 none], "", tarPath :: disk, s1⟩)
    (hDone : ∀ o b a o2 o3 o4 s1, strings.Cut o "sha256:" = (b, a, true) →
      P ⟨none,
        [loadCall o none, tagCall u (strings.TrimSpace a) o2 none, rmCall u o3 none,
          runCall u o4 none], devReport u w, binDest u w :: tarPath :: disk, s1⟩) :
    P (Dev u w disk s) := by
  unfold Dev
  rcases w.connect s with ⟨_ | e, s1⟩ <;> dsimp only
  on_goal 2 => exact hConnect e s1
  rcases w.exportImage tarPath [u.GOARCH] s1 with ⟨_ | e, s2⟩ <;> dsimp only
  on_goal 2 => exact hConnect e _
  rcases w.combinedOutput "docker" ["load", "-i", tarPath] s2 with ⟨⟨o1, _ | e⟩, s3⟩ <;>
    dsimp only
  on_goal 2 => exact hLoad o1 e _
  rcases hcut : strings.Cut o1 "sha256:" with ⟨b, a, _ | _⟩ <;> dsimp only
  on_goal 1 => exact hExtract o1 b a _ hcut
  rcases w.combinedOutput "docker" ["tag", strings.TrimSpace a, imageName u] s3 with
    ⟨⟨o2, _ | e⟩, s4⟩ <;> dsimp only
  on_goal 2 => exact hTag o1 b a o2 e _ hcut
  rcases w.combinedOutput "docker" ["rm", "-fv", u.EngineContainerName] s4 with
    ⟨⟨o3, _ | e⟩, s5⟩ <;> dsimp only
  on_goal 2 => exact hRm o1 b a o2 o3 e _ hcut
  rcases w.combinedOutput "docker" (runArgs u) s5 with ⟨⟨o4, _ | e⟩, s6⟩ <;> dsimp only
  on_goal 2 => exact hRun o1 b a o2 o3 o4 e _ hcut
  rcases w.exportBinary (binDest u w) s6 with ⟨_ | e, s7⟩ <;> dsimp only
  · exact hDone o1 b a o2 o3 o4 _ hcut
  · exact hBinary o1 b a o2 o3 o4 e _ hcut

end mage

/-! ## Facts about `strings.Cut` -/

namespace strings

theorem cutList_none_iff (sep s : List Char) :
    cutList sep s = none ↔ ¬ sep <:+: s := by
  induction s with
  | nil =>
    simp only [cutList]
    cases sep <;> simp [List.isPrefixOf]
  | cons c cs ih =>
    simp only [cutList]
    by_cases h : sep.isPrefixOf (c :: cs) = true
    · simp only [h, if_true]
      have : sep <+: c :: cs := List.isPrefixOf_iff_prefix.mp h
      simp [this.isInfix]
    · simp only [h]
      have hp : ¬ sep <+: c :: cs := fun hp => h (List.isPrefixOf_iff_prefix.mpr hp)
      simp only [Bool.false_eq_true, if_false, Option.map_eq_none', ih, List.infix_cons_iff, hp,
        false_or]

theorem cutList_some (sep : List Char) :
    ∀ (s b a : List Char), cutList sep s = some (b, a) →
      s = b ++ sep ++ a ∧ ∀ b2 a2, s = b2 ++ sep ++ a2 → b.length ≤ b2.length := by
  intro s
  induction s with
  | nil =>
    intro b a h
    simp only [cutList] at h
    split at h
    · rename_i hp
      have hp2 : sep <+: [] := List.isPrefixOf_iff_prefix.mp hp
      have : sep = [] := List.prefix_nil.mp hp2
      subst this
      simp at h
      obtain ⟨rfl, rfl⟩ := h
      simp
    · simp at h
  | cons c cs ih =>
    intro b a h
    simp only [cutList] at h
    split at h
    · rename_i hp
      have hp2 : sep <+: c :: cs := List.isPrefixOf_iff_prefix.mp hp
      simp only [Option.some.injEq, Prod.mk.injEq] at h
      obtain ⟨rfl, rfl⟩ := h
      refine ⟨?_, by simp⟩
      obtain ⟨t, ht⟩ := hp2
      rw [← ht]
      simp
    · rename_i hp
      have hp2 : ¬ sep <+: c :: cs := fun hp3 => hp (List.isPrefixOf_iff_prefix.mpr hp3)
      cases hrec : cutList sep cs with
      | none => simp [hrec] at h
      | some p =>
        obtain ⟨b1, a1⟩ := p
        simp only [hrec, Option.map_some', Option.some.injEq, Prod.mk.injEq] at h
        obtain ⟨rfl, rfl⟩ := h
        obtain ⟨h1, h2⟩ := ih b1 a1 hrec
        refine ⟨by rw [h1]; simp, ?_⟩
        intro b2 a2 hb
        cases b2 with
        | nil =>
          exfalso
          apply hp2
          exact ⟨a2, by simpa using hb.symm⟩
        | cons d ds =>
          simp only [List.cons_append, List.cons.injEq] at hb
          have := h2 ds a2 hb.2
          simp only [List.length_cons]
          omega

theorem Cut_found_iff (s sep : String) :
    (strings.Cut s sep).2.2 = true ↔ sep.data <:+: s.data := by
  unfold strings.Cut
  cases h : strings.cutList sep.data s.data with
  | none =>
    have := (strings.cutList_none_iff sep.data s.data).mp h
    simp [this]
  | some p =>
    have : ¬ ¬ sep.data <:+: s.data := by
      rw [← strings.cutList_none_iff, h]; simp
    simp [not_not.mp this]

end strings

/-! ## Facts about the semver parser -/

namespace semver

open SemVer2

theorem char_of_toNat (c : Char) (n : Nat) (h : c.toNat = n) (hv : n.isValidChar) :
    c = Char.ofNat n := by
  apply Char.ext
  apply UInt32.toNat.inj
  simp [Char.ofNat, hv, Char.ofNatAux]
  exact h

theorem isDigit_iff (c : Char) : isDigit c = true ↔ digit c = true := by
  unfold digit
  rw [decide_eq_true_eq]
  constructor
  · intro h
    simp only [isDigit, Bool.and_eq_true, decide_eq_true_eq, Char.le_def] at h
    have h1 : 48 ≤ c.toNat := h.1
    have h2 : c.toNat ≤ 57 := h.2
    generalize hn : c.toNat = n at h1 h2
    interval_cases n <;> (rw [char_of_toNat c _ hn (by decide)]; decide)
  · exact (by decide : ∀ c ∈ digits, isDigit c = true) c

theorem isIdentChar_iff (c : Char) : isIdentChar c = true ↔ identifierCharacter c = true := by
  unfold identifierCharacter nonDigit
  constructor
  · intro h
    simp only [isIdentChar, Bool.or_eq_true, Bool.and_eq_true, decide_eq_true_eq, Char.le_def,
      beq_iff_eq] at h
    rcases h with ((h | h) | h) | h
    · have h1 : 65 ≤ c.toNat := h.1
      have h2 : c.toNat ≤ 90 := h.2
      generalize hn : c.toNat = n at h1 h2
      interval_cases n <;> (rw [char_of_toNat c _ hn (by decide)]; decide)
    · have h1 : 97 ≤ c.toNat := h.1
      have h2 : c.toNat ≤ 122 := h.2
      generalize hn : c.toNat = n at h1 h2
      interval_cases n <;> (rw [char_of_toNat c _ hn (by decide)]; decide)
    · have : isDigit c = true := by
        simp only [isDigit, Bool.and_eq_true, decide_eq_true_eq, Char.le_def]; exact h
      simp [(isDigit_iff c).mp this]
    · subst h; decide
  · intro h
    simp only [Bool.or_eq_true, decide_eq_true_eq, beq_iff_eq] at h
    rcases h with h | h | h
    · have := (isDigit_iff c).mpr h
      simp only [isDigit, Bool.and_eq_true] at this
      simp [isIdentChar, this]
    · exact (by decide : ∀ c ∈ letters, isIdentChar c = true) c h
    · subst h; decide

theorem nonDigit_not_isDigit (c : Char) (h : nonDigit c = true) : isDigit c = false := by
  simp only [nonDigit, Bool.or_eq_true, decide_eq_true_eq, beq_iff_eq] at h
  rcases h with h | h
  · exact (by decide : ∀ c ∈ letters, isDigit c = false) c h
  · subst h; decide

theorem isIdentChar_cases (c : Char) (h : isIdentChar c = true) :
    isDigit c = true ∨ nonDigit c = true := by
  have := (isIdentChar_iff c).mp h
  simp only [identifierCharacter, Bool.or_eq_true] at this
  rcases this with h1 | h1
  · exact Or.inl ((isDigit_iff c).mpr h1)
  · exact Or.inr h1

theorem isDigit_isIdentChar (c : Char) (h : isDigit c = true) : isIdentChar c = true := by
  simp only [isDigit, Bool.and_eq_true] at h
  simp [isIdentChar, h]

theorem isIdentChar_ne_dot (c : Char) (h : isIdentChar c = true) : c ≠ '.' := by
  rintro rfl; revert h; decide

theorem isIdentChar_ne_plus (c : Char) (h : isIdentChar c = true) : c ≠ '+' := by
  rintro rfl; revert h; decide

theorem takeWhile_length_eq_iff (p : Char → Bool) (t : List Char) :
    (t.takeWhile p).length = t.length ↔ ∀ c ∈ t, p c = true := by
  induction t with
  | nil => simp
  | cons c cs ih =>
    by_cases hc : p c = true
    · simp [List.takeWhile_cons, hc, ih]
    · simp [List.takeWhile_cons, hc]

theorem isBadNum_eq_true_iff (t : List Char) :
    isBadNum t = true ↔ (∀ c ∈ t, isDigit c = true) ∧ 1 < t.length ∧ t.head? = some '0' := by
  simp only [isBadNum, Bool.and_eq_true, beq_iff_eq, decide_eq_true_eq, gt_iff_lt]
  constructor
  · rintro ⟨⟨h1, h2⟩, h3⟩
    exact ⟨(takeWhile_length_eq_iff _ _).mp h1, h1 ▸ h2, h3⟩
  · rintro ⟨h1, h2, h3⟩
    have := (takeWhile_length_eq_iff _ _).mpr h1
    exact ⟨⟨this, this ▸ h2⟩, h3⟩

theorem numericIdentifier_iff (t : List Char) :
    numericIdentifier t = true ↔
      t ≠ [] ∧ (∀ c ∈ t, isDigit c = true) ∧ (t.head? = some '0' → t.length = 1) := by
  simp only [numericIdentifier, Bool.and_eq_true, Bool.not_eq_true', List.isEmpty_eq_false,
    List.all_eq_true, Bool.or_eq_true, bne_iff_ne, ne_eq, beq_iff_eq, ← isDigit_iff]
  constructor
  · rintro ⟨⟨h1, h2⟩, h3⟩
    exact ⟨h1, h2, fun h => h3.resolve_left (not_not.mpr h)⟩
  · rintro ⟨h1, h2, h3⟩
    refine ⟨⟨h1, h2⟩, ?_⟩
    by_cases h : t.head? = some '0'
    · exact Or.inr (h3 h)
    · exact Or.inl h

theorem buildIdentifier_iff (t : List Char) :
    buildIdentifier t = true ↔ t ≠ [] ∧ ∀ c ∈ t, isIdentChar c = true := by
  simp only [buildIdentifier, alphanumericIdentifier, Bool.or_eq_true, Bool.and_eq_true,
    List.all_eq_true, List.any_eq_true, Bool.not_eq_true', List.isEmpty_eq_false,
    ← isDigit_iff, ← isIdentChar_iff]
  constructor
  · rintro (⟨h1, c, hc, _⟩ | ⟨h1, h2⟩)
    · exact ⟨List.ne_nil_of_mem hc, h1⟩
    · exact ⟨h1, fun c hc => isDigit_isIdentChar c (h2 c hc)⟩
  · rintro ⟨h1, h2⟩
    by_cases h : ∀ c ∈ t, isDigit c = true
    · exact Or.inr ⟨h1, h⟩
    · push_neg at h
      obtain ⟨c, hc, hd⟩ := h
      refine Or.inl ⟨h2, c, hc, ?_⟩
      exact (isIdentChar_cases c (h2 c hc)).resolve_left hd

theorem preReleaseIdentifier_iff (t : List Char) :
    preReleaseIdentifier t = true ↔
      t ≠ [] ∧ (∀ c ∈ t, isIdentChar c = true) ∧ isBadNum t = false := by
  rw [← Bool.not_eq_true (isBadNum t), isBadNum_eq_true_iff]
  simp only [preReleaseIdentifier, Bool.or_eq_true, numericIdentifier_iff]
  simp only [alphanumericIdentifier, Bool.and_eq_true, List.all_eq_true, List.any_eq_true,
    ← isIdentChar_iff]
  constructor
  · rintro (⟨h1, c, hc, hn⟩ | ⟨h1, h2, h3⟩)
    · refine ⟨List.ne_nil_of_mem hc, h1, ?_⟩
      rintro ⟨hd, -, -⟩
      have := nonDigit_not_isDigit c hn
      rw [hd c hc] at this
      exact absurd this (by simp)
    · refine ⟨h1, fun c hc => isDigit_isIdentChar c (h2 c hc), ?_⟩
      rintro ⟨-, hl, hh⟩
      have := h3 hh
      omega
  · rintro ⟨h1, h2, h3⟩
    by_cases h : ∀ c ∈ t, isDigit c = true
    · refine Or.inr ⟨h1, h, fun hh => ?_⟩
      by_contra hl
      apply h3
      refine ⟨h, ?_, hh⟩
      have : t.length ≠ 0 := by simpa using h1
      omega
    · push_neg at h
      obtain ⟨c, hc, hd⟩ := h
      exact Or.inl ⟨h2, c, hc, (isIdentChar_cases c (h2 c hc)).resolve_left hd⟩

theorem span_append_stop (p : Char → Bool) (ds rest : List Char)
    (h1 : ∀ c ∈ ds, p c = true) (h2 : ∀ c, rest.head? = some c → p c = false) :
    (ds ++ rest).takeWhile p = ds ∧ (ds ++ rest).dropWhile p = rest := by
  induction ds with
  | nil =>
    cases rest with
    | nil => simp
    | cons c cs => simp [List.takeWhile_cons, List.dropWhile_cons, h2 c rfl]
  | cons d ds ih =>
    have hd : p d = true := h1 d (by simp)
    have := ih (fun c hc => h1 c (by simp [hc]))
    simp [List.takeWhile_cons, List.dropWhile_cons, hd, this]

theorem parseInt_complete (t rest : List Char) (ht : IsNum t) (hr : NoDigitAhead rest) :
    parseInt (t ++ rest) = some (t, rest) := by
  obtain ⟨h1, h2, h3⟩ := ht
  cases t with
  | nil => exact absurd rfl h1
  | cons c cs =>
    have hc : isDigit c = true := h2 c (by simp)
    obtain ⟨e1, e2⟩ := span_append_stop isDigit cs rest (fun d hd => h2 d (by simp [hd])) hr
    simp only [List.cons_append, parseInt, hc, Bool.not_true, Bool.false_eq_true, if_false, e1, e2]
    by_cases h0 : c = '0'
    · subst h0
      have := h3 rfl
      simp only [List.length_cons] at this
      have : cs = [] := List.length_eq_zero.mp (by omega)
      subst this
      simp
    · simp [h0]

theorem parseInt_sound (v t rest : List Char) (h : parseInt v = some (t, rest)) :
    v = t ++ rest ∧ IsNum t ∧ NoDigitAhead rest := by
  cases v with
  | nil => simp [parseInt] at h
  | cons c cs =>
    simp only [parseInt] at h
    split at h
    · simp at h
    · rename_i hc
      split at h
      · simp at h
      · rename_i h0
        simp only [Option.some.injEq, Prod.mk.injEq] at h
        obtain ⟨rfl, rfl⟩ := h
        simp only [Bool.not_eq_true', Bool.not_eq_false] at hc
        refine ⟨by simp [List.takeWhile_append_dropWhile], ⟨by simp, ?_, ?_⟩, ?_⟩
        · intro d hd
          simp only [List.mem_cons] at hd
          rcases hd with rfl | hd
          · exact hc
          · exact (List.mem_takeWhile_imp hd)
        · intro hh
          simp only [List.head?_cons, Option.some.injEq] at hh
          subst hh
          simp only [beq_self_eq_true, Bool.true_and, bne_iff_ne, ne_eq, not_not] at h0
          simpa using h0
        · intro d hd
          cases hdw : List.dropWhile isDigit cs with
          | nil => simp [hdw] at hd
          | cons x xs =>
            simp only [hdw, List.head?_cons, Option.some.injEq] at hd
            subst hd
            have := List.head_dropWhile_not isDigit cs (by simp [hdw])
            simpa [hdw] using this

theorem dotSeparated_cons (x : List Char) (more : List (List Char)) :
    dotSeparated (x :: more) = x ++ dotRest more := by
  induction more generalizing x with
  | nil => simp [dotSeparated, dotRest]
  | cons m ms ih => simp [dotSeparated, dotRest, ih]

theorem prereleaseLoop_scan (x : List Char) :
    ∀ (acc cur r : List Char), (∀ c ∈ x, isIdentChar c = true) →
      prereleaseLoop acc cur (x ++ r) = prereleaseLoop (acc ++ x) (cur ++ x) r := by
  induction x with
  | nil => intro acc cur r _; simp
  | cons c x ih =>
    intro acc cur r h
    have hc : isIdentChar c = true := h c (by simp)
    have h1 : c ≠ '+' := isIdentChar_ne_plus c hc
    have h2 : c ≠ '.' := isIdentChar_ne_dot c hc
    have := ih (acc ++ [c]) (cur ++ [c]) r (fun d hd => h d (by simp [hd]))
    rw [List.cons_append]
    simp only [prereleaseLoop, beq_iff_eq, h1, if_false, hc, Bool.not_true,
      Bool.false_and, Bool.false_eq_true, h2]
    rw [this]
    simp

theorem prereleaseLoop_stop (acc cur rest : List Char) (hcur : IsPre cur) (hr : PlusAhead rest) :
    prereleaseLoop acc cur rest = some (acc, rest) := by
  obtain ⟨h1, -, h3⟩ := hcur
  have he : cur.isEmpty = false := by simpa using h1
  cases rest with
  | nil => simp [prereleaseLoop, he, h3]
  | cons c cs =>
    rcases hr with hr | hr
    · simp at hr
    · simp only [List.head?_cons, Option.some.injEq] at hr
      subst hr
      simp [prereleaseLoop, he, h3]

theorem prereleaseLoop_complete (more : List (List Char)) :
    ∀ (x acc cur rest : List Char), (∀ c ∈ x, isIdentChar c = true) → IsPre (cur ++ x) →
      (∀ m ∈ more, IsPre m) → PlusAhead rest →
      prereleaseLoop acc cur (x ++ dotRest more ++ rest) = some (acc ++ x ++ dotRest more, rest) := by
  induction more with
  | nil =>
    intro x acc cur rest hx hcur _ hr
    simp only [dotRest, List.append_nil]
    rw [prereleaseLoop_scan x acc cur rest hx]
    exact prereleaseLoop_stop _ _ _ hcur hr
  | cons m ms ih =>
    intro x acc cur rest hx hcur hm hr
    rw [List.append_assoc, prereleaseLoop_scan x acc cur _ hx]
    obtain ⟨h1, -, h3⟩ := hcur
    have he : (cur ++ x).isEmpty = false := by simpa using h1
    have hm1 : IsPre m := hm m (by simp)
    have := ih m (acc ++ x ++ ['.']) [] rest hm1.2.1 (by simpa using hm1)
      (fun k hk => hm k (by simp [hk])) hr
    simp only [dotRest, List.cons_append, prereleaseLoop]
    have hd : isIdentChar '.' = false := by decide
    simp only [beq_iff_eq, he, h3, hd, Bool.or_self, Bool.false_eq_true, if_false]
    simp only [List.append_assoc] at this
    simp [this]

theorem prereleaseLoop_sound (v : List Char) :
    ∀ (acc cur t rest : List Char), (∀ c ∈ cur, isIdentChar c = true) →
      prereleaseLoop acc cur v = some (t, rest) →
      ∃ x more, v = x ++ dotRest more ++ rest ∧ t = acc ++ x ++ dotRest more ∧
        IsPre (cur ++ x) ∧ (∀ m ∈ more, IsPre m) ∧ PlusAhead rest := by
  induction v with
  | nil =>
    intro acc cur t rest hcur h
    simp only [prereleaseLoop] at h
    split at h
    · simp at h
    · rename_i hb
      simp only [Bool.or_eq_true, not_or, Bool.not_eq_true, List.isEmpty_eq_false] at hb
      simp only [Option.some.injEq, Prod.mk.injEq] at h
      obtain ⟨rfl, rfl⟩ := h
      exact ⟨[], [], by simp [dotRest], by simp [dotRest],
        by simpa [IsPre] using ⟨hb.1, hcur, hb.2⟩, by simp, Or.inl rfl⟩
  | cons c cs ih =>
    intro acc cur t rest hcur h
    simp only [prereleaseLoop] at h
    split at h
    · rename_i hplus
      split at h
      · simp at h
      · rename_i hb
        simp only [Bool.or_eq_true, not_or, Bool.not_eq_true, List.isEmpty_eq_false] at hb
        simp only [Option.some.injEq, Prod.mk.injEq] at h
        obtain ⟨rfl, rfl⟩ := h
        simp only [beq_iff_eq] at hplus
        exact ⟨[], [], by simp [dotRest], by simp [dotRest],
          by simpa [IsPre] using ⟨hb.1, hcur, hb.2⟩, by simp, Or.inr (by simp [hplus])⟩
    · split at h
      · simp at h
      · rename_i hplus hid
        split at h
        · rename_i hdot
          split at h
          · simp at h
          · rename_i hb
            simp only [Bool.or_eq_true, not_or, Bool.not_eq_true, List.isEmpty_eq_false] at hb
            simp only [beq_iff_eq] at hdot
            subst hdot
            obtain ⟨x, more, e1, e2, hp, hm, hr⟩ := ih _ [] t rest (by simp) h
            refine ⟨[], x :: more, by simp [dotRest, e1], by simp [dotRest, e2],
              by simpa [IsPre] using ⟨hb.1, hcur, hb.2⟩, ?_, hr⟩
            intro m hm2
            simp only [List.mem_cons] at hm2
            rcases hm2 with rfl | hm2
            · simpa using hp
            · exact hm m hm2
        · rename_i hdot
          simp only [beq_iff_eq] at hdot
          have hc : isIdentChar c = true := by
            simp only [Bool.and_eq_true, Bool.not_eq_true', bne_iff_ne, ne_eq, not_and,
              not_not] at hid
            by_contra hn
            exact hdot (hid (by simpa using hn))
          obtain ⟨x, more, e1, e2, hp, hm, hr⟩ := ih _ (cur ++ [c]) t rest
            (by intro d hd; simp only [List.mem_append, List.mem_singleton] at hd
                rcases hd with hd | rfl
                · exact hcur d hd
                · exact hc) h
          exact ⟨c :: x, more, by simp [e1], by simp [e2], by simpa using hp, hm, hr⟩

theorem buildLoop_scan (x : List Char) :
    ∀ (acc cur r : List Char), (∀ c ∈ x, isIdentChar c = true) →
      buildLoop acc cur (x ++ r) = buildLoop (acc ++ x) (cur ++ x) r := by
  induction x with
  | nil => intro acc cur r _; simp
  | cons c x ih =>
    intro acc cur r h
    have hc : isIdentChar c = true := h c (by simp)
    have h2 : c ≠ '.' := isIdentChar_ne_dot c hc
    have := ih (acc ++ [c]) (cur ++ [c]) r (fun d hd => h d (by simp [hd]))
    rw [List.cons_append]
    simp only [buildLoop, beq_iff_eq, if_false, hc, Bool.not_true,
      Bool.false_and, Bool.false_eq_true, h2]
    rw [this]
    simp

theorem buildLoop_complete (more : List (List Char)) :
    ∀ (x acc cur : List Char), (∀ c ∈ x, isIdentChar c = true) → IsBuild (cur ++ x) →
      (∀ m ∈ more, IsBuild m) →
      buildLoop acc cur (x ++ dotRest more) = some (acc ++ x ++ dotRest more, []) := by
  induction more with
  | nil =>
    intro x acc cur hx hcur _
    have he : (cur ++ x).isEmpty = false := by simpa using hcur.1
    have := buildLoop_scan x acc cur [] hx
    simp only [List.append_nil] at this
    simp only [dotRest, List.append_nil, this, buildLoop, he, Bool.false_eq_true, if_false]
  | cons m ms ih =>
    intro x acc cur hx hcur hm
    rw [buildLoop_scan x acc cur _ hx]
    have he : (cur ++ x).isEmpty = false := by simpa using hcur.1
    have hm1 : IsBuild m := hm m (by simp)
    have := ih m (acc ++ x ++ ['.']) [] hm1.2 (by simpa using hm1)
      (fun k hk => hm k (by simp [hk]))
    simp only [dotRest, buildLoop]
    have hd : isIdentChar '.' = false := by decide
    simp only [beq_iff_eq, he, hd, Bool.false_eq_true, if_false]
    simp only [List.append_assoc] at this
    simp [this]

theorem buildLoop_sound (v : List Char) :
    ∀ (acc cur t rest : List Char), (∀ c ∈ cur, isIdentChar c = true) →
      buildLoop acc cur v = some (t, rest) →
      ∃ x more, v = x ++ dotRest more ∧ t = acc ++ x ++ dotRest more ∧ rest = [] ∧
        IsBuild (cur ++ x) ∧ (∀ m ∈ more, IsBuild m) := by
  induction v with
  | nil =>
    intro acc cur t rest hcur h
    simp only [buildLoop] at h
    split at h
    · simp at h
    · rename_i hb
      simp only [Bool.not_eq_true, List.isEmpty_eq_false] at hb
      simp only [Option.some.injEq, Prod.mk.injEq] at h
      obtain ⟨rfl, rfl⟩ := h
      exact ⟨[], [], by simp [dotRest], by simp [dotRest], rfl,
        by simpa [IsBuild] using ⟨hb, hcur⟩, by simp⟩
  | cons c cs ih =>
    intro acc cur t rest hcur h
    simp only [buildLoop] at h
    split at h
    · simp at h
    · rename_i hid
      split at h
      · rename_i hdot
        split at h
        · simp at h
        · rename_i hb
          simp only [Bool.not_eq_true, List.isEmpty_eq_false] at hb
          simp only [beq_iff_eq] at hdot
          subst hdot
          obtain ⟨x, more, e1, e2, e3, hp, hm⟩ := ih _ [] t rest (by simp) h
          refine ⟨[], x :: more, by simp [dotRest, e1], by simp [dotRest, e2], e3,
            by simpa [IsBuild] using ⟨hb, hcur⟩, ?_⟩
          intro m hm2
          simp only [List.mem_cons] at hm2
          rcases hm2 with rfl | hm2
          · simpa using hp
          · exact hm m hm2
      · rename_i hdot
        simp only [beq_iff_eq] at hdot
        have hc : isIdentChar c = true := by
          simp only [Bool.and_eq_true, Bool.not_eq_true', bne_iff_ne, ne_eq, not_and,
            not_not] at hid
          by_contra hn
          exact hdot (hid (by simpa using hn))
        obtain ⟨x, more, e1, e2, e3, hp, hm⟩ := ih _ (cur ++ [c]) t rest
          (by intro d hd; simp only [List.mem_append, List.mem_singleton] at hd
              rcases hd with hd | rfl
              · exact hcur d hd
              · exact hc) h
        exact ⟨c :: x, more, by simp [e1], by simp [e2], e3, by simpa using hp, hm⟩

theorem parsePrerelease_complete (ids : List (List Char)) (rest : List Char) (hne : ids ≠ [])
    (hids : ∀ m ∈ ids, IsPre m) (hr : PlusAhead rest) :
    parsePrerelease ('-' :: dotSeparated ids ++ rest) = some ('-' :: dotSeparated ids, rest) := by
  cases ids with
  | nil => exact absurd rfl hne
  | cons x more =>
    have hx : IsPre x := hids x (by simp)
    have := prereleaseLoop_complete more x ['-'] [] rest hx.2.1 (by simpa using hx)
      (fun m hm => hids m (by simp [hm])) hr
    simp only [dotSeparated_cons, List.cons_append, parsePrerelease, bne_self_eq_false,
      Bool.false_eq_true, if_false]
    simpa using this

theorem parsePrerelease_sound (v t rest : List Char) (h : parsePrerelease v = some (t, rest)) :
    ∃ ids, ids ≠ [] ∧ (∀ m ∈ ids, IsPre m) ∧ v = '-' :: dotSeparated ids ++ rest ∧
      t = '-' :: dotSeparated ids ∧ PlusAhead rest := by
  cases v with
  | nil => simp [parsePrerelease] at h
  | cons c cs =>
    simp only [parsePrerelease] at h
    split at h
    · simp at h
    · rename_i hc
      simp only [bne_iff_ne, ne_eq, not_not] at hc
      subst hc
      obtain ⟨x, more, e1, e2, hp, hm, hr⟩ := prereleaseLoop_sound cs _ [] t rest (by simp) h
      refine ⟨x :: more, by simp, ?_, by simp [dotSeparated_cons, e1],
        by simp [dotSeparated_cons, e2], hr⟩
      intro m hm2
      simp only [List.mem_cons] at hm2
      rcases hm2 with rfl | hm2
      · simpa using hp
      · exact hm m hm2

theorem parseBuild_complete (ids : List (List Char)) (hne : ids ≠ [])
    (hids : ∀ m ∈ ids, IsBuild m) :
    parseBuild ('+' :: dotSeparated ids) = some ('+' :: dotSeparated ids, []) := by
  cases ids with
  | nil => exact absurd rfl hne
  | cons x more =>
    have hx : IsBuild x := hids x (by simp)
    have := buildLoop_complete more x ['+'] [] hx.2 (by simpa using hx)
      (fun m hm => hids m (by simp [hm]))
    simp only [dotSeparated_cons, parseBuild, bne_self_eq_false, Bool.false_eq_true, if_false]
    simpa using this

theorem parseBuild_sound (v t rest : List Char) (h : parseBuild v = some (t, rest)) :
    ∃ ids, ids ≠ [] ∧ (∀ m ∈ ids, IsBuild m) ∧ v = '+' :: dotSeparated ids ∧
      t = '+' :: dotSeparated ids ∧ rest = [] := by
  cases v with
  | nil => simp [parseBuild] at h
  | cons c cs =>
    simp only [parseBuild] at h
    split at h
    · simp at h
    · rename_i hc
      simp only [bne_iff_ne, ne_eq, not_not] at hc
      subst hc
      obtain ⟨x, more, e1, e2, e3, hp, hm⟩ := buildLoop_sound cs _ [] t rest (by simp) h
      refine ⟨x :: more, by simp, ?_, by simp [dotSeparated_cons, e1],
        by simp [dotSeparated_cons, e2], e3⟩
      intro m hm2
      simp only [List.mem_cons] at hm2
      rcases hm2 with rfl | hm2
      · simpa using hp
      · exact hm m hm2

theorem optionalPart_plus_ahead (build : List (List Char)) :
    PlusAhead (optionalPart '+' build) := by
  unfold optionalPart PlusAhead
  cases build <;> simp

theorem build_step (build : List (List Char)) (hbuild : ∀ m ∈ build, IsBuild m) :
    ∃ q, (if (optionalPart '+' build).head? == some '+' then
      parseBuild (optionalPart '+' build) else some ([], optionalPart '+' build)) =
        some (q, []) := by
  rcases build with _ | ⟨b, bs⟩
  · exact ⟨[], by simp [optionalPart]⟩
  · refine ⟨'+' :: dotSeparated (b :: bs), ?_⟩
    have := parseBuild_complete (b :: bs) (by simp) hbuild
    simp only [optionalPart, List.isEmpty_cons, Bool.false_eq_true, if_false, List.head?_cons,
      beq_self_eq_true, if_true]
    exact this

theorem pre_step (pre : List (List Char)) (rest : List Char) (hpre : ∀ m ∈ pre, IsPre m)
    (hr : PlusAhead rest) :
    ∃ p, (if (optionalPart '-' pre ++ rest).head? == some '-' then
      parsePrerelease (optionalPart '-' pre ++ rest) else some ([], optionalPart '-' pre ++ rest)) =
        some (p, rest) := by
  rcases pre with _ | ⟨a, as⟩
  · refine ⟨[], ?_⟩
    have : rest.head? ≠ some '-' := by
      rcases hr with hr | hr
      · simp [hr]
      · simp [hr]
    simp [optionalPart, this]
  · refine ⟨'-' :: dotSeparated (a :: as), ?_⟩
    have := parsePrerelease_complete (a :: as) rest (by simp) hpre hr
    simp only [optionalPart, List.isEmpty_cons, Bool.false_eq_true, if_false,
      List.cons_append, List.head?_cons, beq_self_eq_true, if_true] at this ⊢
    exact this

theorem noDigitAhead_dot (r : List Char) : NoDigitAhead ('.' :: r) := by
  intro c hc
  simp only [List.head?_cons, Option.some.injEq] at hc
  subst hc; decide

theorem noDigitAhead_tail (pre build : List (List Char)) :
    NoDigitAhead (optionalPart '-' pre ++ optionalPart '+' build) := by
  intro c hc
  rcases pre with _ | ⟨a, as⟩ <;> rcases build with _ | ⟨b, bs⟩ <;>
    simp [optionalPart] at hc <;> (subst hc; decide)

theorem parse_full (major minor patch : List Char) (pre build : List (List Char))
    (h1 : IsNum major) (h2 : IsNum minor) (h3 : IsNum patch)
    (h4 : ∀ m ∈ pre, IsPre m) (h5 : ∀ m ∈ build, IsBuild m) :
    (parse ('v' :: (major ++ '.' :: (minor ++ '.' :: (patch ++
      (optionalPart '-' pre ++ optionalPart '+' build)))))).isSome = true := by
  obtain ⟨p, hp⟩ := pre_step pre (optionalPart '+' build) h4 (optionalPart_plus_ahead build)
  obtain ⟨q, hq⟩ := build_step build h5
  simp only [parse, bne_self_eq_false, Bool.false_eq_true, if_false,
    parseInt_complete major _ h1 (noDigitAhead_dot _),
    parseInt_complete minor _ h2 (noDigitAhead_dot _),
    parseInt_complete patch _ h3 (noDigitAhead_tail pre build), hp, hq]
  simp

theorem parse_major (major : List Char) (h1 : IsNum major) :
    (parse ('v' :: major)).isSome = true := by
  have := parseInt_complete major [] h1 (by intro c hc; simp at hc)
  simp only [List.append_nil] at this
  simp [parse, this]

theorem parse_major_minor (major minor : List Char) (h1 : IsNum major) (h2 : IsNum minor) :
    (parse ('v' :: (major ++ '.' :: minor))).isSome = true := by
  have := parseInt_complete minor [] h2 (by intro c hc; simp at hc)
  simp only [List.append_nil] at this
  simp [parse, parseInt_complete major _ h1 (noDigitAhead_dot _), this]

theorem optionalPart_of_ne_nil (lead : Char) (ids : List (List Char)) (h : ids ≠ []) :
    optionalPart lead ids = lead :: dotSeparated ids := by
  cases ids with
  | nil => exact absurd rfl h
  | cons a as => simp [optionalPart]

theorem pre_step_sound (r3 t r4 : List Char)
    (h : (if r3.head? == some '-' then parsePrerelease r3 else some ([], r3)) = some (t, r4)) :
    ∃ pre, (∀ m ∈ pre, IsPre m) ∧ r3 = optionalPart '-' pre ++ r4 := by
  split at h
  · obtain ⟨ids, hne, hids, e, -, -⟩ := parsePrerelease_sound _ _ _ h
    exact ⟨ids, hids, by rw [optionalPart_of_ne_nil _ _ hne]; exact e⟩
  · simp only [Option.some.injEq, Prod.mk.injEq] at h
    exact ⟨[], by simp, by simp [optionalPart, h.2]⟩

theorem build_step_sound (r4 t : List Char)
    (h : (if r4.head? == some '+' then parseBuild r4 else some ([], r4)) = some (t, [])) :
    ∃ build, (∀ m ∈ build, IsBuild m) ∧ r4 = optionalPart '+' build := by
  split at h
  · obtain ⟨ids, hne, hids, e, -, -⟩ := parseBuild_sound _ _ _ h
    exact ⟨ids, hids, by rw [optionalPart_of_ne_nil _ _ hne]; exact e⟩
  · simp only [Option.some.injEq, Prod.mk.injEq] at h
    exact ⟨[], by simp, by simp [optionalPart, h.2]⟩

theorem parse_sound (v : List Char) (h : (parse v).isSome = true) :
    (∃ major, IsNum major ∧ v = 'v' :: major) ∨
    (∃ major minor, IsNum major ∧ IsNum minor ∧ v = 'v' :: (major ++ '.' :: minor)) ∨
    (∃ major minor patch pre build, IsNum major ∧ IsNum minor ∧ IsNum patch ∧
      (∀ m ∈ pre, IsPre m) ∧ (∀ m ∈ build, IsBuild m) ∧
      v = 'v' :: (major ++ '.' :: (minor ++ '.' :: (patch ++
        (optionalPart '-' pre ++ optionalPart '+' build))))) := by
  rcases v with _ | ⟨c0, v1⟩
  · simp [parse] at h
  simp only [parse] at h
  by_cases hv : c0 = 'v'
  swap
  · simp [hv] at h
  subst hv
  simp only [bne_self_eq_false, Bool.false_eq_true, if_false] at h
  rcases hmaj : parseInt v1 with _ | ⟨major, r1⟩
  · simp [hmaj] at h
  obtain ⟨e1, n1, -⟩ := parseInt_sound _ _ _ hmaj
  simp only [hmaj] at h
  rcases r1 with _ | ⟨c1, v2⟩
  · exact Or.inl ⟨major, n1, by simp [e1]⟩
  simp only at h
  by_cases hd1 : c1 = '.'
  swap
  · simp [hd1] at h
  subst hd1
  simp only [bne_self_eq_false, Bool.false_eq_true, if_false] at h
  rcases hmin : parseInt v2 with _ | ⟨minor, r2⟩
  · simp [hmin] at h
  obtain ⟨e2, n2, -⟩ := parseInt_sound _ _ _ hmin
  simp only [hmin] at h
  rcases r2 with _ | ⟨c2, v3⟩
  · exact Or.inr (Or.inl ⟨major, minor, n1, n2, by simp [e1, e2]⟩)
  simp only at h
  by_cases hd2 : c2 = '.'
  swap
  · simp [hd2] at h
  subst hd2
  simp only [bne_self_eq_false, Bool.false_eq_true, if_false] at h
  rcases hpat : parseInt v3 with _ | ⟨patch, r3⟩
  · simp [hpat] at h
  obtain ⟨e3, n3, -⟩ := parseInt_sound _ _ _ hpat
  simp only [hpat] at h
  right; right
  rcases hpre : (if r3.head? == some '-' then parsePrerelease r3 else some ([], r3)) with
    _ | ⟨preText, r4⟩
  · rw [hpre] at h; simp at h
  rw [hpre] at h
  simp only at h
  rcases hbuild : (if r4.head? == some '+' then parseBuild r4 else some ([], r4)) with
    _ | ⟨buildText, r5⟩
  · rw [hbuild] at h; simp at h
  rw [hbuild] at h
  simp only at h
  have hr5 : r5 = [] := by
    by_contra hne
    simp [hne] at h
  subst hr5
  obtain ⟨pre, hp1, hp2⟩ := pre_step_sound _ _ _ hpre
  obtain ⟨build, hb1, hb2⟩ := build_step_sound _ _ hbuild
  exact ⟨major, minor, patch, pre, build, n1, n2, n3, hp1, hb1, by
    rw [e1, e2, e3, hp2, hb2]⟩

end semver

/-! ## `Dev` from the answers of the world -/

namespace mage

open strings

theorem Dev_unfold {σ : Type} (u : Util) (w : World σ) (disk : List String) (s : σ) :
    Dev u w disk s =
      match (w.connect s).1 with
      | some e => ⟨some e, [], "", disk, (w.connect s).2⟩
      | none =>
      match (exportAnswer u w s).1 with
      | some e => ⟨some e, [], "", disk, w.close (exportAnswer u w s).2⟩
      | none =>
      match (loadAnswer u w s).1.2 with
      | some e =>
        ⟨some (subprocessError "docker load failed: " e (loadAnswer u w s).1.1),
          [loadCall (loadAnswer u w s).1.1 (some e)], "", tarPath :: disk,
          w.close (loadAnswer u w s).2⟩
      | none =>
      if ¬ "sha256:".data <:+: (loadAnswer u w s).1.1.data then
        ⟨some (.errorString
            ("unexpected output from docker load: " ++ (loadAnswer u w s).1.1)),
          [loadCall (loadAnswer u w s).1.1 none], "", tarPath :: disk,
          w.close (loadAnswer u w s).2⟩
      else
      match (tagAnswer u w s).1.2 with
      | some e =>
        ⟨some (subprocessError "docker tag: " e (tagAnswer u w s).1.1),
          [loadCall (loadAnswer u w s).1.1 none,
            tagCall u (loadedID u w s) (tagAnswer u w s).1.1 (some e)], "", tarPath :: disk,
          w.close (tagAnswer u w s).2⟩
      | none =>
      match (rmAnswer u w s).1.2 with
      | some e =>
        ⟨some (subprocessError "docker rm: " e (rmAnswer u w s).1.1),
          [loadCall (loadAnswer u w s).1.1 none,
            tagCall u (loadedID u w s) (tagAnswer u w s).1.1 none,
            rmCall u (rmAnswer u w s).1.1 (some e)], "", tarPath :: disk,
          w.close (rmAnswer u w s).2⟩
      | none =>
      match (runAnswer u w s).1.2 with
      | some e =>
        ⟨some (subprocessError "docker run: " e (runAnswer u w s).1.1),
          [loadCall (loadAnswer u w s).1.1 none,
            tagCall u (loadedID u w s) (tagAnswer u w s).1.1 none,
            rmCall u (rmAnswer u w s).1.1 none,
            runCall u (runAnswer u w s).1.1 (some e)], "", tarPath :: disk,
          w.close (runAnswer u w s).2⟩
      | none =>
      match (binaryAnswer u w s).1 with
      | some e =>
        ⟨some e,
          [loadCall (loadAnswer u w s).1.1 none,
            tagCall u (loadedID u w s) (tagAnswer u w s).1.1 none,
            rmCall u (rmAnswer u w s).1.1 none,
            runCall u (runAnswer u w s).1.1 none], "", tarPath :: disk,
          w.close (binaryAnswer u w s).2⟩
      | none =>
        ⟨none,
          [loadCall (loadAnswer u w s).1.1 none,
            tagCall u (loadedID u w s) (tagAnswer u w s).1.1 none,
            rmCall u (rmAnswer u w s).1.1 none,
            runCall u (runAnswer u w s).1.1 none], devReport u w,
          binDest u w :: tarPath :: disk, w.close (binaryAnswer u w s).2⟩ := by
  unfold binaryAnswer runAnswer rmAnswer tagAnswer loadedID loadAnswer exportAnswer Dev
  rcases w.connect s with ⟨_ | e, s1⟩ <;> dsimp only
  rcases w.exportImage tarPath [u.GOARCH] s1 with ⟨_ | e, s2⟩ <;> dsimp only
  rcases w.combinedOutput "docker" ["load", "-i", tarPath] s2 with ⟨⟨o1, _ | e⟩, s3⟩ <;>
    dsimp only
  on_goal 2 => rfl
  have hf := Cut_found_iff o1 "sha256:"
  have hid : extractImageID o1 = match strings.Cut o1 "sha256:" with
      | (_, _, false) => none
      | (_, a, true) => some (strings.TrimSpace a) := rfl
  rcases hcut : strings.Cut o1 "sha256:" with ⟨b, a, _ | _⟩ <;> rw [hcut] at hf hid <;>
    dsimp only at hf hid ⊢
  · have : ¬ "sha256:".data <:+: o1.data := fun h => by simpa using hf.mpr h
    simp only [this, not_false_eq_true, if_true]
    rfl
  · have : "sha256:".data <:+: o1.data := hf.mp rfl
    simp only [this, not_true_eq_false, if_false, hid, Option.getD_some]
    rcases w.combinedOutput "docker" ["tag", strings.TrimSpace a, imageName u] s3 with
      ⟨⟨o2, _ | e⟩, s4⟩ <;> dsimp only
    on_goal 2 => rfl
    rcases w.combinedOutput "docker" ["rm", "-fv", u.EngineContainerName] s4 with
      ⟨⟨o3, _ | e⟩, s5⟩ <;> dsimp only
    on_goal 2 => rfl
    rcases w.combinedOutput "docker" (runArgs u) s5 with ⟨⟨o4, _ | e⟩, s6⟩ <;> dsimp only
    on_goal 2 => rfl
    rcases w.exportBinary (binDest u w) s6 with ⟨_ | e, s7⟩ <;> dsimp only
    · rfl
    · rfl

theorem Dev_connect_fails {σ : Type} (u : Util) (w : World σ) (disk : List String) (s : σ) (e : GoError)
    (h : (w.connect s).1 = some e) :
    Dev u w disk s = ⟨some e, [], "", disk, (w.connect s).2⟩ := by
  rw [Dev_unfold]; simp only [h]

theorem Dev_export_fails {σ : Type} (u : Util) (w : World σ) (disk : List String) (s : σ) (e : GoError)
    (hc : (w.connect s).1 = none) (h : (exportAnswer u w s).1 = some e) :
    Dev u w disk s = ⟨some e, [], "", disk, w.close (exportAnswer u w s).2⟩ := by
  rw [Dev_unfold]; simp only [hc, h]

theorem Dev_load_fails {σ : Type} (u : Util) (w : World σ) (disk : List String) (s : σ) (e : GoError)
    (hr : loadReached u w s) (h : (loadAnswer u w s).1.2 = some e) :
    Dev u w disk s =
      ⟨some (subprocessError "docker load failed: " e (loadAnswer u w s).1.1),
        [loadCall (loadAnswer u w s).1.1 (some e)], "", tarPath :: disk,
        w.close (loadAnswer u w s).2⟩ := by
  rw [Dev_unfold]; simp only [hr.1, hr.2, h]

theorem Dev_no_marker {σ : Type} (u : Util) (w : World σ) (disk : List String) (s : σ)
    (hr : loadReached u w s) (h : (loadAnswer u w s).1.2 = none)
    (hn : ¬ "sha256:".data <:+: (loadAnswer u w s).1.1.data) :
    Dev u w disk s =
      ⟨some (.errorString ("unexpected output from docker load: " ++ (loadAnswer u w s).1.1)),
        [loadCall (loadAnswer u w s).1.1 none], "", tarPath :: disk,
        w.close (loadAnswer u w s).2⟩ := by
  rw [Dev_unfold]; simp only [hr.1, hr.2, h, hn, not_false_eq_true, if_true]

theorem Dev_tag_fails {σ : Type} (u : Util) (w : World σ) (disk : List String) (s : σ) (e : GoError)
    (hr : tagReached u w s) (h : (tagAnswer u w s).1.2 = some e) :
    Dev u w disk s =
      ⟨some (subprocessError "docker tag: " e (tagAnswer u w s).1.1),
        [loadCall (loadAnswer u w s).1.1 none,
          tagCall u (loadedID u w s) (tagAnswer u w s).1.1 (some e)], "", tarPath :: disk,
        w.close (tagAnswer u w s).2⟩ := by
  obtain ⟨⟨hc, hx⟩, hl, hm⟩ := hr
  rw [Dev_unfold]; simp only [hc, hx, hl, hm, not_true_eq_false, if_false, h]

theorem Dev_rm_fails {σ : Type} (u : Util) (w : World σ) (disk : List String) (s : σ) (e : GoError)
    (hr : rmReached u w s) (h : (rmAnswer u w s).1.2 = some e) :
    Dev u w disk s =
      ⟨some (subprocessError "docker rm: " e (rmAnswer u w s).1.1),
        [loadCall (loadAnswer u w s).1.1 none,
          tagCall u (loadedID u w s) (tagAnswer u w s).1.1 none,
          rmCall u (rmAnswer u w s).1.1 (some e)], "", tarPath :: disk,
        w.close (rmAnswer u w s).2⟩ := by
  obtain ⟨⟨⟨hc, hx⟩, hl, hm⟩, ht⟩ := hr
  rw [Dev_unfold]; simp only [hc, hx, hl, hm, not_true_eq_false, if_false, ht, h]

theorem Dev_run_fails {σ : Type} (u : Util) (w : World σ) (disk : List String) (s : σ) (e : GoError)
    (hr : runReached u w s) (h : (runAnswer u w s).1.2 = some e) :
    Dev u w disk s =
      ⟨some (subprocessError "docker run: " e (runAnswer u w s).1.1),
        [loadCall (loadAnswer u w s).1.1 none,
          tagCall u (loadedID u w s) (tagAnswer u w s).1.1 none,
          rmCall u (rmAnswer u w s).1.1 none,
          runCall u (runAnswer u w s).1.1 (some e)], "", tarPath :: disk,
        w.close (runAnswer u w s).2⟩ := by
  obtain ⟨⟨⟨⟨hc, hx⟩, hl, hm⟩, ht⟩, hrm⟩ := hr
  rw [Dev_unfold]; simp only [hc, hx, hl, hm, not_true_eq_false, if_false, ht, hrm, h]

theorem Dev_binary_fails {σ : Type} (u : Util) (w : World σ) (disk : List String) (s : σ) (e : GoError)
    (hr : binaryReached u w s) (h : (binaryAnswer u w s).1 = some e) :
    Dev u w disk s =
      ⟨some e,
        [loadCall (loadAnswer u w s).1.1 none,
          tagCall u (loadedID u w s) (tagAnswer u w s).1.1 none,
          rmCall u (rmAnswer u w s).1.1 none,
          runCall u (runAnswer u w s).1.1 none], "", tarPath :: disk,
        w.close (binaryAnswer u w s).2⟩ := by
  obtain ⟨⟨⟨⟨⟨hc, hx⟩, hl, hm⟩, ht⟩, hrm⟩, hrun⟩ := hr
  rw [Dev_unfold]; simp only [hc, hx, hl, hm, not_true_eq_false, if_false, ht, hrm, hrun, h]

theorem Dev_all_succeed {σ : Type} (u : Util) (w : World σ) (disk : List String) (s : σ)
    (hr : allSucceed u w s) :
    Dev u w disk s =
      ⟨none,
        [loadCall (loadAnswer u w s).1.1 none,
          tagCall u (loadedID u w s) (tagAnswer u w s).1.1 none,
          rmCall u (rmAnswer u w s).1.1 none,
          runCall u (runAnswer u w s).1.1 none], devReport u w,
        binDest u w :: tarPath :: disk, w.close (binaryAnswer u w s).2⟩ := by
  obtain ⟨⟨⟨⟨⟨⟨hc, hx⟩, hl, hm⟩, ht⟩, hrm⟩, hrun⟩, hb⟩ := hr
  rw [Dev_unfold]; simp only [hc, hx, hl, hm, not_true_eq_false, if_false, ht, hrm, hrun, hb]

theorem Dev_fails_of_not_all {σ : Type} (u : Util) (w : World σ) (disk : List String) (s : σ)
    (h : ¬ allSucceed u w s) :
    (Dev u w disk s).err ≠ none ∧ (Dev u w disk s).stdout = "" := by
  rcases hc : (w.connect s).1 with _ | e
  swap
  · rw [Dev_connect_fails u w disk s e hc]; simp
  rcases hx : (exportAnswer u w s).1 with _ | e
  swap
  · rw [Dev_export_fails u w disk s e hc hx]; simp
  have hlr : loadReached u w s := ⟨hc, hx⟩
  rcases hl : (loadAnswer u w s).1.2 with _ | e
  swap
  · rw [Dev_load_fails u w disk s e hlr hl]; simp [subprocessError]
  by_cases hm : "sha256:".data <:+: (loadAnswer u w s).1.1.data
  swap
  · rw [Dev_no_marker u w disk s hlr hl hm]; simp
  have htr : tagReached u w s := ⟨hlr, hl, hm⟩
  rcases ht : (tagAnswer u w s).1.2 with _ | e
  swap
  · rw [Dev_tag_fails u w disk s e htr ht]; simp [subprocessError]
  have hrr : rmReached u w s := ⟨htr, ht⟩
  rcases hrm : (rmAnswer u w s).1.2 with _ | e
  swap
  · rw [Dev_rm_fails u w disk s e hrr hrm]; simp [subprocessError]
  have hur : runReached u w s := ⟨hrr, hrm⟩
  rcases hrun : (runAnswer u w s).1.2 with _ | e
  swap
  · rw [Dev_run_fails u w disk s e hur hrun]; simp [subprocessError]
  have hbr : binaryReached u w s := ⟨hur, hrun⟩
  rcases hb : (binaryAnswer u w s).1 with _ | e
  swap
  · rw [Dev_binary_fails u w disk s e hbr hb]; simp
  exact absurd ⟨hbr, hb⟩ h

theorem surfaces_subprocessError (label : String) (e : GoError) (o : String) :
    Surfaces (some (subprocessError label e o)) label e o :=
  ⟨_, rfl, rfl, rfl, by
    simp only [subprocessError, GoError.Error, String.data_append]
    exact (List.suffix_append _ _).isInfix⟩

end mage

/-! ## The parser against the grammar -/

namespace semver

open SemVer2

theorem strict_isValid (tag : String) (h : StrictSemVer tag) : IsValid tag = true := by
  obtain ⟨major, minor, patch, pre, build, h1, h2, h3, h4, h5, e⟩ := h
  unfold IsValid
  rw [e]
  exact parse_full major minor patch pre build ((numericIdentifier_iff _).mp h1)
    ((numericIdentifier_iff _).mp h2) ((numericIdentifier_iff _).mp h3)
    (fun m hm => (preReleaseIdentifier_iff m).mp (h4 m hm))
    (fun m hm => (buildIdentifier_iff m).mp (h5 m hm))

theorem short_isValid (tag : String) (h : ShortSemVer tag) : IsValid tag = true := by
  obtain ⟨major, h1, e | ⟨minor, h2, e⟩⟩ := h
  · unfold IsValid
    rw [e]
    exact parse_major major ((numericIdentifier_iff _).mp h1)
  · unfold IsValid
    rw [e]
    exact parse_major_minor major minor ((numericIdentifier_iff _).mp h1)
      ((numericIdentifier_iff _).mp h2)

theorem isValid_shape (tag : String) (h : IsValid tag = true) :
    StrictSemVer tag ∨ ShortSemVer tag := by
  rcases parse_sound tag.data h with ⟨major, h1, e⟩ | ⟨major, minor, h1, h2, e⟩ |
    ⟨major, minor, patch, pre, build, h1, h2, h3, h4, h5, e⟩
  · exact Or.inr ⟨major, (numericIdentifier_iff _).mpr h1, Or.inl e⟩
  · exact Or.inr ⟨major, (numericIdentifier_iff _).mpr h1,
      Or.inr ⟨minor, (numericIdentifier_iff _).mpr h2, e⟩⟩
  · exact Or.inl ⟨major, minor, patch, pre, build, (numericIdentifier_iff _).mpr h1,
      (numericIdentifier_iff _).mpr h2, (numericIdentifier_iff _).mpr h3,
      fun m hm => (preReleaseIdentifier_iff m).mpr (h4 m hm),
      fun m hm => (buildIdentifier_iff m).mpr (h5 m hm), e⟩

theorem strict_has_two_dots (tag : String) (h : StrictSemVer tag) :
    2 ≤ tag.data.count '.' := by
  obtain ⟨major, minor, patch, pre, build, -, -, -, -, -, e⟩ := h
  rw [e]
  simp only [List.count_cons, List.count_append]
  simp
  omega

theorem starts_with_v (tag : String) (h : StrictSemVer tag ∨ ShortSemVer tag) :
    tag.data.head? = some 'v' := by
  rcases h with ⟨_, _, _, _, _, -, -, -, -, -, e⟩ | ⟨_, -, e | ⟨_, -, e⟩⟩ <;> rw [e] <;> rfl

end semver

/-! ## The claims -/

open mage semver SemVer2 strings

/-- Claim C1.  `parseRef` returns the nil error for the tag `main` and for
every tag of the strict form `vMAJOR.MINOR.PATCH` with an optional
pre-release part and an optional build part of the SemVer 2.0 grammar. -/
theorem parseRef_accepts_main_and_semver (tag : String)
    (h : tag = "main" ∨ StrictSemVer tag) : parseRef tag = none := by
  rcases h with rfl | h
  · decide
  · simp [parseRef, strict_isValid tag h]

/-- Claim C1 at `main` and at `v1.2.3-alpha.1+build.5`. -/
theorem parseRef_accepts_main_and_semver_witness :
    parseRef "main" = none ∧ parseRef "v1.2.3-alpha.1+build.5" = none :=
  ⟨parseRef_accepts_main_and_semver "main" (Or.inl rfl),
   parseRef_accepts_main_and_semver "v1.2.3-alpha.1+build.5"
    (Or.inr ⟨"1".data, "2".data, "3".data, ["alpha".data, "1".data], ["build".data, "5".data],
      by decide, by decide, by decide, by decide, by decide, by decide⟩)⟩

/-- Claim C2 fails at `v1` and at `v1.2`: neither is `main`, neither has the
strict form, and `parseRef` returns the nil error for both. -/
theorem parseRef_accepts_short_forms :
    ("v1" ≠ "main" ∧ ¬ StrictSemVer "v1" ∧ parseRef "v1" = none) ∧
    ("v1.2" ≠ "main" ∧ ¬ StrictSemVer "v1.2" ∧ parseRef "v1.2" = none) := by
  refine ⟨⟨by decide, fun h => ?_, by decide⟩, ⟨by decide, fun h => ?_, by decide⟩⟩
  · exact absurd (strict_has_two_dots _ h) (by decide)
  · exact absurd (strict_has_two_dots _ h) (by decide)

/-- Claim C2, amended.  For a tag other than `main`, `parseRef` returns the
error `invalid semver tag: <tag>` exactly when the tag has neither the strict
form nor one of the shortened forms `vMAJOR` and `vMAJOR.MINOR`. -/
theorem parseRef_rejects_iff (tag : String) (hmain : tag ≠ "main") :
    parseRef tag = some (.errorString ("invalid semver tag: " ++ tag)) ↔
      ¬ StrictSemVer tag ∧ ¬ ShortSemVer tag := by
  have hm : (tag == "main") = false := by simpa using hmain
  constructor
  · intro h
    have hv : semver.IsValid tag = false := by
      by_contra hv
      simp [parseRef, hm, hv] at h
    exact ⟨fun hs => by simp [strict_isValid tag hs] at hv,
      fun hs => by simp [short_isValid tag hs] at hv⟩
  · rintro ⟨h1, h2⟩
    have hv : semver.IsValid tag = false := by
      by_contra hv
      rcases isValid_shape tag (by simpa using hv) with h | h
      · exact h1 h
      · exact h2 h
    simp [parseRef, hm, hv]

/-- Claim C2, amended, at the un-prefixed tag `1.2.3`, which is rejected. -/
theorem parseRef_rejects_iff_witness :
    parseRef "1.2.3" = some (.errorString ("invalid semver tag: " ++ "1.2.3")) :=
  (parseRef_rejects_iff "1.2.3" (by decide)).mpr
    ⟨fun h => absurd (starts_with_v _ (Or.inl h)) (by decide),
     fun h => absurd (starts_with_v _ (Or.inr h)) (by decide)⟩

/-- Claim C3 fails on its own sample: from `digest sha256:abc123 done` the
extraction step yields `abc123 done`, not `abc123`, and that is the identity
`Dev` hands to `docker tag`. -/
theorem extractImageID_sample_keeps_trailing_text :
    extractImageID "digest sha256:abc123 done" = some "abc123 done" ∧
      extractImageID "digest sha256:abc123 done" ≠ some "abc123" ∧
      ((Dev stdUtil scriptedWorld [] [("digest sha256:abc123 done", none)]).calls.map
        Call.args)[1]? = some ["tag", "abc123 done", "localhost/dagger-engine:latest"] := by
  decide

/-- Claim C3, amended.  On the sample the step yields `abc123 done`; in
general the identity is the whole text after the first `sha256:` marker with
the white space around it trimmed, and it is what `Dev` passes to
`docker tag`. -/
theorem extractImageID_after_marker :
    extractImageID "digest sha256:abc123 done" = some "abc123 done" ∧
    (∀ output id, extractImageID output = some id →
      ∃ before after, output.data = before ++ "sha256:".data ++ after ∧
        (∀ b2 a2, output.data = b2 ++ "sha256:".data ++ a2 → before.length ≤ b2.length) ∧
        id = strings.TrimSpace ⟨after⟩) ∧
    (∀ {σ : Type} (u : Util) (w : World σ) (disk : List String) (s : σ) (c : Call),
      (Dev u w disk s).calls[1]? = some c →
      ∃ load id, (Dev u w disk s).calls[0]? = some load ∧
        extractImageID load.output = some id ∧ c.args = ["tag", id, imageName u]) := by
  refine ⟨by decide, ?_, ?_⟩
  · intro output id h
    unfold extractImageID strings.Cut at h
    cases hc : strings.cutList "sha256:".data output.data with
    | none => simp [hc] at h
    | some p =>
      obtain ⟨b, a⟩ := p
      simp only [hc, Option.some.injEq] at h
      obtain ⟨h1, h2⟩ := strings.cutList_some _ _ _ _ hc
      exact ⟨b, a, h1, h2, h.symm⟩
  · intro σ u w disk s c
    refine Dev_elim u w disk s
      (fun r => r.calls[1]? = some c → ∃ load id, r.calls[0]? = some load ∧
        extractImageID load.output = some id ∧ c.args = ["tag", id, imageName u])
      ?_ ?_ ?_ ?_ ?_ ?_ ?_ ?_
    · intro e s1 h; simp at h
    · intro o e s1 h; simp at h
    · intro o b a s1 hcut h; simp at h
    · intro o b a o2 e s1 hcut h
      simp [tagCall] at h; subst h
      exact ⟨loadCall _ none, _, rfl, by simp [extractImageID, loadCall, hcut], rfl⟩
    · intro o b a o2 o3 e s1 hcut h
      simp [tagCall] at h; subst h
      exact ⟨loadCall _ none, _, rfl, by simp [extractImageID, loadCall, hcut], rfl⟩
    · intro o b a o2 o3 o4 e s1 hcut h
      simp [tagCall] at h; subst h
      exact ⟨loadCall _ none, _, rfl, by simp [extractImageID, loadCall, hcut], rfl⟩
    · intro o b a o2 o3 o4 e s1 hcut h
      simp [tagCall] at h; subst h
      exact ⟨loadCall _ none, _, rfl, by simp [extractImageID, loadCall, hcut], rfl⟩
    · intro o b a o2 o3 o4 s1 hcut h
      simp [tagCall] at h; subst h
      exact ⟨loadCall _ none, _, rfl, by simp [extractImageID, loadCall, hcut], rfl⟩

/-- Claim C3, amended, on the output `docker load` really prints. -/
theorem extractImageID_after_marker_witness :
    ∃ before after, "Loaded image ID: sha256:abc123\n".data = before ++ "sha256:".data ++ after ∧
      (∀ b2 a2, "Loaded image ID: sha256:abc123\n".data = b2 ++ "sha256:".data ++ a2 →
        before.length ≤ b2.length) ∧
      "abc123" = strings.TrimSpace ⟨after⟩ :=
  extractImageID_after_marker.2.1 "Loaded image ID: sha256:abc123\n" "abc123" (by decide)

/-- Claim C4.  The docker verbs `Dev` issues are a prefix of load, tag, rm,
run.  Whenever the world answers one of the four commands with an error, the
earlier ones having succeeded, `Dev` returns the error of that step, has
issued exactly the commands up to it and asks nothing more of the world; and
when the load succeeds with an output that lacks the `sha256:` marker, `Dev`
returns the unexpected-output error after the load call alone. -/
theorem Dev_fail_fast {σ : Type} (u : Util) (w : World σ) (disk : List String) (s : σ) :
    ((Dev u w disk s).calls.map Call.verb <+:
        [some "load", some "tag", some "rm", some "run"]) ∧
    (∀ e, loadReached u w s → (loadAnswer u w s).1.2 = some e →
      (Dev u w disk s).err =
          some (subprocessError "docker load failed: " e (loadAnswer u w s).1.1) ∧
        (Dev u w disk s).calls = [loadCall (loadAnswer u w s).1.1 (some e)] ∧
        (Dev u w disk s).state = w.close (loadAnswer u w s).2) ∧
    (loadReached u w s → (loadAnswer u w s).1.2 = none →
      ¬ "sha256:".data <:+: (loadAnswer u w s).1.1.data →
      (Dev u w disk s).err =
          some (.errorString
            ("unexpected output from docker load: " ++ (loadAnswer u w s).1.1)) ∧
        (Dev u w disk s).calls = [loadCall (loadAnswer u w s).1.1 none] ∧
        (Dev u w disk s).state = w.close (loadAnswer u w s).2) ∧
    (∀ e, tagReached u w s → (tagAnswer u w s).1.2 = some e →
      (Dev u w disk s).err = some (subprocessError "docker tag: " e (tagAnswer u w s).1.1) ∧
        (Dev u w disk s).calls =
          [loadCall (loadAnswer u w s).1.1 none,
            tagCall u (loadedID u w s) (tagAnswer u w s).1.1 (some e)] ∧
        (Dev u w disk s).state = w.close (tagAnswer u w s).2) ∧
    (∀ e, rmReached u w s → (rmAnswer u w s).1.2 = some e →
      (Dev u w disk s).err = some (subprocessError "docker rm: " e (rmAnswer u w s).1.1) ∧
        (Dev u w disk s).calls =
          [loadCall (loadAnswer u w s).1.1 none,
            tagCall u (loadedID u w s) (tagAnswer u w s).1.1 none,
            rmCall u (rmAnswer u w s).1.1 (some e)] ∧
        (Dev u w disk s).state = w.close (rmAnswer u w s).2) ∧
    (∀ e, runReached u w s → (runAnswer u w s).1.2 = some e →
      (Dev u w disk s).err = some (subprocessError "docker run: " e (runAnswer u w s).1.1) ∧
        (Dev u w disk s).calls =
          [loadCall (loadAnswer u w s).1.1 none,
            tagCall u (loadedID u w s) (tagAnswer u w s).1.1 none,
            rmCall u (rmAnswer u w s).1.1 none,
            runCall u (runAnswer u w s).1.1 (some e)] ∧
        (Dev u w disk s).state = w.close (runAnswer u w s).2) := by
  refine ⟨?_, ?_, ?_, ?_, ?_, ?_⟩
  · refine Dev_elim u w disk s
      (fun r => r.calls.map Call.verb <+: [some "load", some "tag", some "rm", some "run"])
      ?_ ?_ ?_ ?_ ?_ ?_ ?_ ?_
    all_goals intros
    all_goals simp [Call.verb, loadCall, tagCall, rmCall, runCall, runArgs]
  · intro e hr h; rw [Dev_load_fails u w disk s e hr h]; exact ⟨rfl, rfl, rfl⟩
  · intro hr h hn; rw [Dev_no_marker u w disk s hr h hn]; exact ⟨rfl, rfl, rfl⟩
  · intro e hr h; rw [Dev_tag_fails u w disk s e hr h]; exact ⟨rfl, rfl, rfl⟩
  · intro e hr h; rw [Dev_rm_fails u w disk s e hr h]; exact ⟨rfl, rfl, rfl⟩
  · intro e hr h; rw [Dev_run_fails u w disk s e hr h]; exact ⟨rfl, rfl, rfl⟩

/-- Claim C4 on runs in which the load fails, the marker is missing, and the
tag, the remove and the run fail. -/
theorem Dev_fail_fast_witness :
    ((Dev stdUtil scriptedWorld [] loadFailsScript).err =
        some (subprocessError "docker load failed: " exitStatus1
          "open ./bin/engine.tar: permission denied\n") ∧
      (Dev stdUtil scriptedWorld [] loadFailsScript).calls =
        [loadCall "open ./bin/engine.tar: permission denied\n" (some exitStatus1)] ∧
      (Dev stdUtil scriptedWorld [] loadFailsScript).state = []) ∧
    ((Dev stdUtil scriptedWorld [] noMarkerScript).err =
        some (.errorString
          ("unexpected output from docker load: " ++ "open ./bin/engine.tar: no such file\n")) ∧
      (Dev stdUtil scriptedWorld [] noMarkerScript).calls =
        [loadCall "open ./bin/engine.tar: no such file\n" none] ∧
      (Dev stdUtil scriptedWorld [] noMarkerScript).state = []) ∧
    ((Dev stdUtil scriptedWorld [] tagFailsScript).calls =
        [loadCall "Loaded image ID: sha256:abc123\n" none,
          tagCall stdUtil "abc123" "Error response from daemon: No such image: abc123\n"
            (some exitStatus1)]) ∧
    ((Dev stdUtil scriptedWorld [] notFoundScript).calls.length = 3) ∧
    ((Dev stdUtil scriptedWorld [] runFailsScript).err =
        some (subprocessError "docker run: " exitStatus1
          "docker: Error response from daemon: Conflict.\n")) :=
  ⟨(Dev_fail_fast stdUtil scriptedWorld [] loadFailsScript).2.1 exitStatus1
      (by decide) (by decide),
    (Dev_fail_fast stdUtil scriptedWorld [] noMarkerScript).2.2.1
      (by decide) (by decide) (by decide),
    ((Dev_fail_fast stdUtil scriptedWorld [] tagFailsScript).2.2.2.1 exitStatus1
      (by decide) (by decide)).2.1,
    congrArg List.length ((Dev_fail_fast stdUtil scriptedWorld [] notFoundScript).2.2.2.2.1
      exitStatus1 (by decide) (by decide)).2.1,
    ((Dev_fail_fast stdUtil scriptedWorld [] runFailsScript).2.2.2.2.2 exitStatus1
      (by decide) (by decide)).1⟩

/-- Claim C5 fails when `docker rm` reports a missing container: `Dev`
returns an error and no run command is issued. -/
theorem Dev_teardown_not_found_aborts :
    (Dev stdUtil scriptedWorld [] notFoundScript).calls[2]? =
        some (rmCall stdUtil "Error response from daemon: No such container: dagger-engine\n"
          (some exitStatus1)) ∧
      (Dev stdUtil scriptedWorld [] notFoundScript).err ≠ none ∧
      (Dev stdUtil scriptedWorld [] notFoundScript).calls.length = 3 ∧
      ∀ c ∈ (Dev stdUtil scriptedWorld [] notFoundScript).calls, c.verb ≠ some "run" := by
  decide

/-- Claim C5, amended.  Whatever error the world answers the remove call
with, `Dev` returns the teardown error built from it, has issued load, tag
and rm only, prints nothing and asks nothing more of the world, so the run
command is never issued. -/
theorem Dev_teardown_failure_aborts {σ : Type} (u : Util) (w : World σ) (disk : List String)
    (s : σ) (e : GoError)
    (hr : rmReached u w s) (he : (rmAnswer u w s).1.2 = some e) :
    (Dev u w disk s).err = some (subprocessError "docker rm: " e (rmAnswer u w s).1.1) ∧
      (Dev u w disk s).calls =
        [loadCall (loadAnswer u w s).1.1 none,
          tagCall u (loadedID u w s) (tagAnswer u w s).1.1 none,
          rmCall u (rmAnswer u w s).1.1 (some e)] ∧
      (∀ c ∈ (Dev u w disk s).calls, c.verb ≠ some "run") ∧
      (Dev u w disk s).stdout = "" ∧
      (Dev u w disk s).state = w.close (rmAnswer u w s).2 := by
  rw [Dev_rm_fails u w disk s e hr he]
  refine ⟨rfl, rfl, ?_, rfl, rfl⟩
  intro c hc
  simp only [List.mem_cons, List.mem_singleton, List.not_mem_nil, or_false] at hc
  rcases hc with rfl | rfl | rfl <;> simp [Call.verb, loadCall, tagCall, rmCall]

/-- Claim C5, amended, on the run with the missing container. -/
theorem Dev_teardown_failure_aborts_witness :
    (Dev stdUtil scriptedWorld [] notFoundScript).err =
        some (subprocessError "docker rm: " exitStatus1
          "Error response from daemon: No such container: dagger-engine\n") ∧
      (Dev stdUtil scriptedWorld [] notFoundScript).calls =
        [loadCall "Loaded image ID: sha256:abc123\n" none,
          tagCall stdUtil "abc123" "" none,
          rmCall stdUtil "Error response from daemon: No such container: dagger-engine\n"
            (some exitStatus1)] :=
  have h := Dev_teardown_failure_aborts stdUtil scriptedWorld [] notFoundScript
    exitStatus1 (by decide) (by decide)
  ⟨h.1, h.2.1⟩

/-- Claim C6 fails on a run in which every subprocess succeeds: the load
command is given `./bin/engine.tar`, not `./engine.tar`. -/
theorem Dev_load_path_is_bin_engine_tar :
    (∀ c ∈ (Dev stdUtil scriptedWorld [] okScript).calls, c.err = none) ∧
      (Dev stdUtil scriptedWorld [] okScript).calls.length = 4 ∧
      ((Dev stdUtil scriptedWorld [] okScript).calls.map Call.args).head? =
        some ["load", "-i", "./bin/engine.tar"] ∧
      ((Dev stdUtil scriptedWorld [] okScript).calls.map Call.args).head? ≠
        some ["load", "-i", "./engine.tar"] := by
  decide

/-- Claim C6, amended.  With the container name `dagger-engine`, whenever
the world answers the connect, the export and the four subprocesses with
success, `Dev` passes docker exactly the four argument vectors of the claim,
in order, with the archive path `./bin/engine.tar` and the identity extracted
from the load output, and asks the world for nothing else but the export of
the CLI binary. -/
theorem Dev_argument_vectors {σ : Type} (u : Util) (w : World σ) (disk : List String) (s : σ)
    (hname : u.EngineContainerName = "dagger-engine")
    (hok : binaryReached u w s) :
    extractImageID (loadAnswer u w s).1.1 = some (loadedID u w s) ∧
      (∀ c ∈ (Dev u w disk s).calls, c.name = "docker") ∧
      (Dev u w disk s).calls.map Call.args =
        [["load", "-i", "./bin/engine.tar"],
         ["tag", loadedID u w s, "localhost/dagger-engine:latest"],
         ["rm", "-fv", "dagger-engine"],
         ["run", "-d", "-e", u.CacheConfigEnvName, "-e", u.ServicesDNSEnvName,
          "-e", "_EXPERIMENTAL_DAGGER_CLOUD_TOKEN", "-e", "_EXPERIMENTAL_DAGGER_CLOUD_URL",
          "-v", "dagger-engine:" ++ u.EngineDefaultStateDir, "--name", "dagger-engine",
          "--privileged", "localhost/dagger-engine:latest", "--debug"]] ∧
      (Dev u w disk s).calls.map Call.output =
        [(loadAnswer u w s).1.1, (tagAnswer u w s).1.1, (rmAnswer u w s).1.1,
          (runAnswer u w s).1.1] ∧
      (Dev u w disk s).state = w.close (binaryAnswer u w s).2 := by
  have hid : extractImageID (loadAnswer u w s).1.1 = some (loadedID u w s) := by
    have hm := hok.1.1.1.2.2
    have hf := (Cut_found_iff (loadAnswer u w s).1.1 "sha256:").mpr hm
    unfold loadedID extractImageID
    rcases hcut : strings.Cut (loadAnswer u w s).1.1 "sha256:" with ⟨b, a, _ | _⟩
    · rw [hcut] at hf; simp at hf
    · simp
  have key : ∀ r : DevResult σ,
      r.calls = [loadCall (loadAnswer u w s).1.1 none,
          tagCall u (loadedID u w s) (tagAnswer u w s).1.1 none,
          rmCall u (rmAnswer u w s).1.1 none,
          runCall u (runAnswer u w s).1.1 none] →
      (∀ c ∈ r.calls, c.name = "docker") ∧
      r.calls.map Call.args =
        [["load", "-i", "./bin/engine.tar"],
         ["tag", loadedID u w s, "localhost/dagger-engine:latest"],
         ["rm", "-fv", "dagger-engine"],
         ["run", "-d", "-e", u.CacheConfigEnvName, "-e", u.ServicesDNSEnvName,
          "-e", "_EXPERIMENTAL_DAGGER_CLOUD_TOKEN", "-e", "_EXPERIMENTAL_DAGGER_CLOUD_URL",
          "-v", "dagger-engine:" ++ u.EngineDefaultStateDir, "--name", "dagger-engine",
          "--privileged", "localhost/dagger-engine:latest", "--debug"]] ∧
      r.calls.map Call.output =
        [(loadAnswer u w s).1.1, (tagAnswer u w s).1.1, (rmAnswer u w s).1.1,
          (runAnswer u w s).1.1] := by
    intro r hr
    rw [hr]
    simp [loadCall, tagCall, rmCall, runCall, runArgs, imageName, hname, tarPath]
  rcases hb : (binaryAnswer u w s).1 with _ | e
  · have h := Dev_all_succeed u w disk s ⟨hok, hb⟩
    obtain ⟨k1, k2, k3⟩ := key (Dev u w disk s) (by rw [h])
    exact ⟨hid, k1, k2, k3, by rw [h]⟩
  · have h := Dev_binary_fails u w disk s e hok hb
    obtain ⟨k1, k2, k3⟩ := key (Dev u w disk s) (by rw [h])
    exact ⟨hid, k1, k2, k3, by rw [h]⟩

/-- Claim C6, amended, on a run in which every subprocess succeeds. -/
theorem Dev_argument_vectors_witness :
    (Dev stdUtil scriptedWorld [] okScript).calls.map Call.args =
        [["load", "-i", "./bin/engine.tar"],
         ["tag", "abc123", "localhost/dagger-engine:latest"],
         ["rm", "-fv", "dagger-engine"],
         ["run", "-d", "-e", "_EXPERIMENTAL_DAGGER_CACHE_CONFIG",
          "-e", "_EXPERIMENTAL_DAGGER_SERVICES_DNS",
          "-e", "_EXPERIMENTAL_DAGGER_CLOUD_TOKEN", "-e", "_EXPERIMENTAL_DAGGER_CLOUD_URL",
          "-v", "dagger-engine:/var/lib/dagger", "--name", "dagger-engine",
          "--privileged", "localhost/dagger-engine:latest", "--debug"]] :=
  (Dev_argument_vectors stdUtil scriptedWorld [] okScript rfl (by decide)).2.2.1

/-- Claim C7.  When the world answers every step with success, `Dev`
returns nil after the four commands and prints exactly two export lines, the
first with the path the CLI binary was exported to and the second with
`docker-container://` followed by the container name; when the world answers
any step with a failure, `Dev` returns an error and prints nothing. -/
theorem Dev_report {σ : Type} (u : Util) (w : World σ) (disk : List String) (s : σ) :
    (allSucceed u w s →
      (Dev u w disk s).err = none ∧
      (Dev u w disk s).stdout =
        "export _EXPERIMENTAL_DAGGER_CLI_BIN=" ++ binDest u w ++ "\n" ++
          "export _EXPERIMENTAL_DAGGER_RUNNER_HOST=docker-container://" ++
            u.EngineContainerName ++ "\n" ∧
      binDest u w ∈ (Dev u w disk s).disk ∧
      (Dev u w disk s).calls.map Call.verb =
        [some "load", some "tag", some "rm", some "run"] ∧
      (Dev u w disk s).state = w.close (binaryAnswer u w s).2) ∧
    (¬ allSucceed u w s → (Dev u w disk s).err ≠ none ∧ (Dev u w disk s).stdout = "") := by
  refine ⟨fun h => ?_, Dev_fails_of_not_all u w disk s⟩
  rw [Dev_all_succeed u w disk s h]
  refine ⟨rfl, rfl, by simp, ?_, rfl⟩
  simp [Call.verb, loadCall, tagCall, rmCall, runCall, runArgs]

/-- Claim C7 on a successful run and on a run in which `docker run` fails. -/
theorem Dev_report_witness :
    ((Dev stdUtil scriptedWorld [] okScript).err = none ∧
      (Dev stdUtil scriptedWorld [] okScript).stdout =
        "export _EXPERIMENTAL_DAGGER_CLI_BIN=/src/bin/dagger\n" ++
          "export _EXPERIMENTAL_DAGGER_RUNNER_HOST=docker-container://dagger-engine\n") ∧
    ((Dev stdUtil scriptedWorld [] runFailsScript).err ≠ none ∧
      (Dev stdUtil scriptedWorld [] runFailsScript).stdout = "") :=
  have h := (Dev_report stdUtil scriptedWorld [] okScript).1 (by decide)
  ⟨⟨h.1, h.2.1⟩, (Dev_report stdUtil scriptedWorld [] runFailsScript).2 (by decide)⟩

/-- Claim C8.  For each of load, tag, rm and run: when the world answers
that command with error `e` and combined output `o`, the earlier steps having
succeeded, the error `Dev` returns unwraps to `e` and its message is the
label of the step, the message of `e`, a colon and `o` unchanged. -/
theorem Dev_subprocess_error_keeps_output {σ : Type} (u : Util) (w : World σ)
    (disk : List String) (s : σ) (e : GoError) :
    (loadReached u w s → (loadAnswer u w s).1.2 = some e →
      Surfaces (Dev u w disk s).err "docker load failed: " e (loadAnswer u w s).1.1) ∧
    (tagReached u w s → (tagAnswer u w s).1.2 = some e →
      Surfaces (Dev u w disk s).err "docker tag: " e (tagAnswer u w s).1.1) ∧
    (rmReached u w s → (rmAnswer u w s).1.2 = some e →
      Surfaces (Dev u w disk s).err "docker rm: " e (rmAnswer u w s).1.1) ∧
    (runReached u w s → (runAnswer u w s).1.2 = some e →
      Surfaces (Dev u w disk s).err "docker run: " e (runAnswer u w s).1.1) := by
  refine ⟨fun hr h => ?_, fun hr h => ?_, fun hr h => ?_, fun hr h => ?_⟩
  · rw [Dev_load_fails u w disk s e hr h]; exact surfaces_subprocessError _ _ _
  · rw [Dev_tag_fails u w disk s e hr h]; exact surfaces_subprocessError _ _ _
  · rw [Dev_rm_fails u w disk s e hr h]; exact surfaces_subprocessError _ _ _
  · rw [Dev_run_fails u w disk s e hr h]; exact surfaces_subprocessError _ _ _

/-- Claim C8 on four runs, one failing at each of load, tag, rm and run. -/
theorem Dev_subprocess_error_keeps_output_witness :
    Surfaces (Dev stdUtil scriptedWorld [] loadFailsScript).err "docker load failed: "
        exitStatus1 "open ./bin/engine.tar: permission denied\n" ∧
      Surfaces (Dev stdUtil scriptedWorld [] tagFailsScript).err "docker tag: "
        exitStatus1 "Error response from daemon: No such image: abc123\n" ∧
      Surfaces (Dev stdUtil scriptedWorld [] notFoundScript).err "docker rm: "
        exitStatus1 "Error response from daemon: No such container: dagger-engine\n" ∧
      Surfaces (Dev stdUtil scriptedWorld [] runFailsScript).err "docker run: "
        exitStatus1 "docker: Error response from daemon: Conflict.\n" :=
  ⟨(Dev_subprocess_error_keeps_output stdUtil scriptedWorld [] loadFailsScript exitStatus1).1
      (by decide) (by decide),
    (Dev_subprocess_error_keeps_output stdUtil scriptedWorld [] tagFailsScript exitStatus1).2.1
      (by decide) (by decide),
    (Dev_subprocess_error_keeps_output stdUtil scriptedWorld [] notFoundScript
      exitStatus1).2.2.1 (by decide) (by decide),
    (Dev_subprocess_error_keeps_output stdUtil scriptedWorld [] runFailsScript
      exitStatus1).2.2.2 (by decide) (by decide)⟩

/-- Claim C9.  A version `parseRef` rejects makes `Publish` return that
error with no connection, no publication, no bump and the world untouched; a
version it accepts is published, if at all, under
`<DAGGER_ENGINE_IMAGE>:<version>`, and is published once connected. -/
theorem Publish_gate {σ : Type} (w : World σ) (version : String) (s : σ) :
    (∀ e, parseRef version = some e →
      (Publish w version s).err = some e ∧ (Publish w version s).connects = 0 ∧
        (Publish w version s).published = [] ∧ (Publish w version s).bumped = [] ∧
        (Publish w version s).stdout = "" ∧ (Publish w version s).state = s) ∧
    (parseRef version = none →
      (∀ ref ∈ (Publish w version s).published,
        ref = w.getHostEnv "DAGGER_ENGINE_IMAGE" ++ ":" ++ version) ∧
      ((w.connect s).1 = none →
        (Publish w version s).published =
          [w.getHostEnv "DAGGER_ENGINE_IMAGE" ++ ":" ++ version])) := by
  constructor
  · intro e h
    simp [Publish, h]
  · intro h
    unfold Publish
    simp only [h]
    rcases w.connect s with ⟨_ | e, s1⟩ <;> dsimp only
    on_goal 2 => simp
    rcases w.publish (w.getHostEnv "DAGGER_ENGINE_IMAGE" ++ ":" ++ version)
      publishedEngineArches version s1 with ⟨⟨d, _ | e⟩, s2⟩ <;> dsimp only
    on_goal 2 => simp
    by_cases hv : semver.IsValid version = true
    · simp only [hv, if_true]
      rcases w.bump version s2 with ⟨_ | e, s3⟩ <;> simp
    · simp [hv]

/-- Claim C9 at the rejected `1.2.3` and the accepted `v0.6.4`. -/
theorem Publish_gate_witness :
    (Publish scriptedWorld "1.2.3" []).err =
        some (.errorString "invalid semver tag: 1.2.3") ∧
      (Publish scriptedWorld "1.2.3" []).connects = 0 ∧
      (Publish scriptedWorld "1.2.3" []).published = [] ∧
      (Publish scriptedWorld "1.2.3" []).bumped = [] ∧
      (Publish scriptedWorld "1.2.3" []).stdout = "" ∧
      (Publish scriptedWorld "v0.6.4" []).published = ["registry.dagger.io/engine:v0.6.4"] :=
  have h := (Publish_gate scriptedWorld "1.2.3" []).1
    (.errorString "invalid semver tag: 1.2.3") (by decide)
  ⟨h.1, h.2.1, h.2.2.1, h.2.2.2.1, h.2.2.2.2.1,
    ((Publish_gate scriptedWorld "v0.6.4" []).2 (by decide)).2 (by decide)⟩

/-- Claim C10 fails on a successful run and on a failed one: the archive
`./bin/engine.tar` is still on disk when `Dev` returns. -/
theorem Dev_leaves_archive_on_disk :
    (Dev stdUtil scriptedWorld [] okScript).err = none ∧
      "./bin/engine.tar" ∈ (Dev stdUtil scriptedWorld [] okScript).disk ∧
      (Dev stdUtil scriptedWorld [] tagFailsScript).err ≠ none ∧
      "./bin/engine.tar" ∈ (Dev stdUtil scriptedWorld [] tagFailsScript).disk := by
  decide

/-- Claim C10, amended.  Once the load step was reached the archive
`./bin/engine.tar` is on disk when `Dev` returns, on every exit path, and
`Dev` removes no file that was there before. -/
theorem Dev_archive_kept {σ : Type} (u : Util) (w : World σ) (disk : List String) (s : σ) :
    ((Dev u w disk s).calls ≠ [] → "./bin/engine.tar" ∈ (Dev u w disk s).disk) ∧
      ∀ p ∈ disk, p ∈ (Dev u w disk s).disk := by
  refine Dev_elim u w disk s
    (fun r => (r.calls ≠ [] → "./bin/engine.tar" ∈ r.disk) ∧ ∀ p ∈ disk, p ∈ r.disk)
    ?_ ?_ ?_ ?_ ?_ ?_ ?_ ?_
  all_goals intros
  all_goals simp_all [tarPath, loadCall]

/-- Claim C10, amended, on a run in which `docker tag` fails. -/
theorem Dev_archive_kept_witness :
    "./bin/engine.tar" ∈ (Dev stdUtil scriptedWorld [] tagFailsScript).disk :=
  (Dev_archive_kept stdUtil scriptedWorld [] tagFailsScript).1 (by decide)

